import Mathlib

/-!
# 0x order hashing, signing and wire encoding (`order.go`, package `zeroex`)

A shallow embedding of `order.go`.

* Go byte slices and Go strings are both sequences of bytes: `Bytes`.  A nil
  slice and an empty slice are the same sequence.
* A `*big.Int` is an `Option Int` (`none` is the nil pointer).
* A Go result `(value, error)` is a pair whose second component is an
  `Option Error` (`none` is the nil error).
* A run-time panic (nil dereference) is the outer `Option` of a result:
  `none` means the call panicked.
* A method with a pointer receiver returns the receiver afterwards next to its
  result.
* Library code that is not part of the repository (`encoding/hex`, `math/big`,
  `strings`, `go-ethereum/common`, `encoding/json`) is modelled from its
  documented behaviour.  JSON text is represented by the object it denotes.
  The hash primitives, the signature scheme tag and the signer are parameters.
-/

namespace zeroex

/-! ## Bytes and strings -/

/-- A byte. -/
abbrev Byte := Fin 256

/-- A Go `[]byte` or `string`. -/
abbrev Bytes := List Byte

/-- The bytes of an ASCII string literal. -/
def ascii (s : String) : Bytes := s.data.map (fun c => Fin.ofNat c.toNat)

/-! ## `encoding/hex` -/

/-- The table `hextable = "0123456789abcdef"` of `encoding/hex`. -/
def hextable : Bytes := [48, 49, 50, 51, 52, 53, 54, 55, 56, 57, 97, 98, 99, 100, 101, 102]

/-- Go `hex.EncodeToString`: two table characters per byte, `hextable[v>>4]` then
`hextable[v&0x0f]`. -/
def hex_EncodeToString : Bytes → Bytes
  | [] => []
  | v :: rest => hextable.getD (v.val / 16) 0 :: hextable.getD (v.val % 16) 0 :: hex_EncodeToString rest

/-- The value of one hex character (`reverseHexTable`), `none` for a byte that is
not a hex digit. -/
def fromHexChar (c : Byte) : Option Nat :=
  if 48 ≤ c.val ∧ c.val ≤ 57 then some (c.val - 48)
  else if 97 ≤ c.val ∧ c.val ≤ 102 then some (c.val - 97 + 10)
  else if 65 ≤ c.val ∧ c.val ≤ 70 then some (c.val - 65 + 10)
  else none

/-- Go `hex.DecodeString`: the bytes decoded before the first error, and whether the
whole input was decoded (`err == nil`). -/
def hex_DecodeString : Bytes → Bytes × Bool
  | [] => ([], true)
  | [_] => ([], false)
  | p :: q :: rest =>
    match fromHexChar p, fromHexChar q with
    | some a, some b =>
      let r := hex_DecodeString rest
      (Fin.ofNat (a * 16 + b) :: r.1, r.2)
    | _, _ => ([], false)

/-! ## `go-ethereum/common` -/

/-- Go `common.Bytes2Hex`. -/
def common_Bytes2Hex (d : Bytes) : Bytes := hex_EncodeToString d

/-- Go `common.Hex2Bytes`: the error of `hex.DecodeString` is dropped. -/
def common_Hex2Bytes (str : Bytes) : Bytes := (hex_DecodeString str).1

/-- Go `has0xPrefix`: the string starts with `0x` or `0X`. -/
def has0xPrefix : Bytes → Bool
  | c0 :: c1 :: _ => c0 = 48 ∧ (c1 = 120 ∨ c1 = 88)
  | _ => false

/-- Go `common.FromHex`: strip an optional `0x`, left-pad an odd-length string with
`0`, decode. -/
def common_FromHex (s : Bytes) : Bytes :=
  let s1 := if has0xPrefix s then s.drop 2 else s
  let s2 := if s1.length % 2 = 1 then 48 :: s1 else s1
  common_Hex2Bytes s2

/-- A 20-byte address (`common.Address`). -/
abbrev Address := { b : Bytes // b.length = 20 }

/-- A 32-byte hash (`common.Hash`). -/
abbrev Hash := { b : Bytes // b.length = 32 }

/-- Go `SetBytes` of a fixed-size byte array of length `n`: a longer input is cropped
from the left, a shorter one is right-aligned in zeroes. -/
def setBytes (n : Nat) (b : Bytes) : { l : Bytes // l.length = n } :=
  ⟨List.replicate (n - (if b.length > n then b.drop (b.length - n) else b).length) 0
      ++ (if b.length > n then b.drop (b.length - n) else b), by
    by_cases h : b.length > n
    · simp only [if_pos h, List.length_append, List.length_replicate, List.length_drop]
      omega
    · simp only [if_neg h, List.length_append, List.length_replicate]
      omega⟩

/-- Go `common.BytesToAddress`. -/
def common_BytesToAddress (b : Bytes) : Address := setBytes 20 b

/-- Go `common.BytesToHash`. -/
def common_BytesToHash (b : Bytes) : Hash := setBytes 32 b

/-- Go `common.HexToAddress`. -/
def common_HexToAddress (s : Bytes) : Address := common_BytesToAddress (common_FromHex s)

/-- The zero value of `common.Address`. -/
def Address.zero : Address := ⟨List.replicate 20 0, by simp⟩

/-- The zero value of `common.Hash`. -/
def Hash.zero : Hash := ⟨List.replicate 32 0, by simp⟩

/-! ## `math/big` and `go-ethereum/common/math` -/

/-- The decimal digits of `n`, most significant first, prepended to `acc`
(`nat.itoa` for base 10); `fuel` bounds the number of digits. -/
def decimalDigits : Nat → Nat → Bytes → Bytes
  | 0, _, acc => acc
  | fuel + 1, n, acc =>
    if n < 10 then Fin.ofNat (48 + n) :: acc
    else decimalDigits fuel (n / 10) (Fin.ofNat (48 + n % 10) :: acc)

/-- The base-10 text of a natural number, `0` for zero. -/
def natDecimal (n : Nat) : Bytes := decimalDigits (n + 1) n []

/-- Go `(*big.Int).String`: `<nil>` for the nil pointer, else the base-10 text with a
leading `-` for a negative value. -/
def big_Int_String : Option Int → Bytes
  | none => ascii "<nil>"
  | some z => if z < 0 then 45 :: natDecimal z.natAbs else natDecimal z.natAbs

/-- Conversion of a Go `uint64` to `int64`, and negation in `int64`: the value
modulo `2^64` read as two's complement. -/
def wrapInt64 (z : Int) : Int :=
  let m := z % 2 ^ 64
  if m < 2 ^ 63 then m else m - 2 ^ 64

/-- Go `(*big.Int).Int64`: `v := int64(low64(x.abs)); if x.neg then v = -v`.  It panics
(`none`) on the nil pointer. -/
def big_Int_Int64 : Option Int → Option Int
  | none => none
  | some x =>
    let v := wrapInt64 ((x.natAbs % 2 ^ 64 : Nat) : Int)
    some (if x < 0 then wrapInt64 (-v) else v)

/-- Go `big.NewInt`. -/
def big_NewInt (x : Int) : Option Int := some x

/-- The digit value `nat.scan` gives a character (bases up to 36), `none` for a
character that is no digit at all. -/
def digitValue (ch : Byte) : Option Nat :=
  if 48 ≤ ch.val ∧ ch.val ≤ 57 then some (ch.val - 48)
  else if 97 ≤ ch.val ∧ ch.val ≤ 122 then some (ch.val - 97 + 10)
  else if 65 ≤ ch.val ∧ ch.val ≤ 90 then some (ch.val - 65 + 10)
  else none

/-- The mantissa loop of `nat.scan` for a fixed base: every character has to be a
digit below the base (the caller requires the whole input to be consumed). -/
def scanDigits (base : Nat) : Nat → Bytes → Option Nat
  | acc, [] => some acc
  | acc, ch :: rest =>
    match digitValue ch with
    | some d => if d < base then scanDigits base (acc * base + d) rest else none
    | none => none

/-- Go `(*big.Int).SetString(s, base)` for a base between 2 and 36: an optional sign,
then at least one digit, and nothing else.  `none` is `ok == false`. -/
def big_Int_SetString (s : Bytes) (base : Nat) : Option Int :=
  match s with
  | [] => none
  | ch :: rest =>
    let neg := ch = 45
    let body := if ch = 45 ∨ ch = 43 then rest else s
    match body with
    | [] => none
    | _ :: _ =>
      match scanDigits base 0 body with
      | some n => some (if neg then -(n : Int) else (n : Int))
      | none => none

/-- Go `math.ParseBig256`: decimal or `0x`-prefixed hex, rejected when the bit length
of the magnitude exceeds 256.  `none` is `ok == false`. -/
def math_ParseBig256 (s : Bytes) : Option Int :=
  match s with
  | [] => some 0
  | _ :: _ =>
    let r :=
      match s with
      | c0 :: c1 :: rest =>
        if c0 = 48 ∧ (c1 = 120 ∨ c1 = 88) then big_Int_SetString rest 16
        else big_Int_SetString s 10
      | _ => big_Int_SetString s 10
    match r with
    | some z => if z.natAbs < 2 ^ 256 then some z else none
    | none => none

/-- Go `math.NewHexOrDecimal256(x)`: the big integer `big.NewInt(x)`. -/
def math_NewHexOrDecimal256 (x : Int) : Int := x

/-! ## Parameters: hash primitives and the scheme tag -/

/-- A Go `error` value, identified by its message. -/
abbrev Error := String

/-- A value of the typed-data maps handed to `HashStruct`. -/
inductive TypedValue where
  | str (s : Bytes)
  | bytes (b : Bytes)
  | int (z : Int)
  deriving DecidableEq, Repr

/-- A `map[string]interface{}` of typed data, as the list of its entries. -/
abbrev TypedDataMessage := List (Bytes × TypedValue)

/-- What `order.go` uses and does not define.
* `Keccak256 b` is the sum of a `sha3.NewLegacyKeccak256()` that was written `b`; it
  is 32 bytes long.
* `HashStruct primaryType data` is `typedData.HashStruct(primaryType, data)` for the
  schema `eip712OrderTypes`; it returns the hash bytes or an error.
* `EthSignSignature` is the signature-type constant of that name. -/
structure Env where
  Keccak256 : Bytes → Bytes
  Keccak256_length : ∀ b, (Keccak256 b).length = 32
  HashStruct : Bytes → TypedDataMessage → Except Error Bytes
  EthSignSignature : Byte

/-- One step of the checksum loop: `if buf[i] > '9' && hashByte > 7 { buf[i] -= 32 }`. -/
def checksumByte (c : Byte) (hashByte : Nat) : Byte :=
  if c.val > 57 ∧ hashByte > 7 then Fin.ofNat (c.val - 32) else c

/-- The checksum loop of `Address.checksumHex` over `buf[2:]`: position `k` (that is
`i - 2`) takes the high or low nibble of `hash[k/2]` and upper-cases a letter when
the nibble exceeds 7. -/
def checksumLoop (hash : Bytes) : Nat → Bytes → Bytes
  | _, [] => []
  | k, c :: rest =>
    let hashByte := (hash.getD (k / 2) 0).val
    checksumByte c (if k % 2 = 0 then hashByte / 16 else hashByte % 16)
      :: checksumLoop hash (k + 1) rest

/-- Go `Address.Hex`: `0x` and the EIP-55 checksummed hex of the 20 bytes. -/
def Address.Hex (env : Env) (a : Address) : Bytes :=
  let digits := hex_EncodeToString a.val
  48 :: 120 :: checksumLoop (env.Keccak256 digits) 0 digits

/-- The lower-case form of an ASCII byte: `A`..`Z` become `a`..`z`. -/
def lowerByte (c : Byte) : Byte :=
  if 65 ≤ c.val ∧ c.val ≤ 90 then Fin.ofNat (c.val + 32) else c

/-- Go `strings.ToLower` on an ASCII string. -/
def strings_ToLower (s : Bytes) : Bytes := s.map lowerByte

/-! ## The order model -/

/-- An unsigned 0x order (`type Order struct`); `hash` is the cached order hash. -/
structure Order where
  ChainID : Option Int
  ExchangeAddress : Address
  MakerAddress : Address
  MakerAssetData : Bytes
  MakerFeeAssetData : Bytes
  MakerAssetAmount : Option Int
  MakerFee : Option Int
  TakerAddress : Address
  TakerAssetData : Bytes
  TakerFeeAssetData : Bytes
  TakerAssetAmount : Option Int
  TakerFee : Option Int
  SenderAddress : Address
  FeeRecipientAddress : Address
  ExpirationTimeSeconds : Option Int
  Salt : Option Int
  hash : Option Hash
  deriving DecidableEq

/-- A signed 0x order (`type SignedOrder struct`). -/
structure SignedOrder extends Order where
  Signature : Bytes
  deriving DecidableEq

/-- The zero value of `Order`. -/
def Order.zero : Order :=
  { ChainID := none, ExchangeAddress := Address.zero, MakerAddress := Address.zero,
    MakerAssetData := [], MakerFeeAssetData := [], MakerAssetAmount := none, MakerFee := none,
    TakerAddress := Address.zero, TakerAssetData := [], TakerFeeAssetData := [],
    TakerAssetAmount := none, TakerFee := none, SenderAddress := Address.zero,
    FeeRecipientAddress := Address.zero, ExpirationTimeSeconds := none, Salt := none,
    hash := none }

/-- The zero value of `SignedOrder`. -/
def SignedOrder.zero : SignedOrder := { toOrder := Order.zero, Signature := [] }

/-- Go `(*Order).ResetHash`. -/
def Order.ResetHash (o : Order) : Order := { o with hash := none }

/-- The fields of `gethsigner.TypedDataDomain` (`ChainId` is a pointer). -/
structure TypedDataDomain where
  Name : Bytes
  Version : Bytes
  ChainId : Option Int
  VerifyingContract : Bytes
  Salt : Bytes

/-- Go `TypedDataDomain.Map`: an entry for the chain id when it is not nil and for each
string that is not empty. -/
def TypedDataDomain.Map (domain : TypedDataDomain) : TypedDataMessage :=
  (match domain.ChainId with
    | some c => [(ascii "chainId", TypedValue.int c)]
    | none => []) ++
  (if domain.Name.length > 0 then [(ascii "name", TypedValue.str domain.Name)] else []) ++
  (if domain.Version.length > 0 then [(ascii "version", TypedValue.str domain.Version)] else []) ++
  (if domain.VerifyingContract.length > 0
    then [(ascii "verifyingContract", TypedValue.str domain.VerifyingContract)] else []) ++
  (if domain.Salt.length > 0 then [(ascii "salt", TypedValue.str domain.Salt)] else [])

/-- The `domain` value built by `ComputeOrderHash` from the narrowed chain id. -/
def orderDomain (env : Env) (o : Order) (chainID : Int) : TypedDataDomain :=
  { Name := ascii "0x Protocol"
    Version := ascii "3.0.0"
    ChainId := some (math_NewHexOrDecimal256 chainID)
    VerifyingContract := o.ExchangeAddress.Hex env
    Salt := [] }

/-- The `message` map built by `ComputeOrderHash`. -/
def orderMessage (env : Env) (o : Order) : TypedDataMessage :=
  [ (ascii "makerAddress", TypedValue.str (o.MakerAddress.Hex env)),
    (ascii "takerAddress", TypedValue.str (o.TakerAddress.Hex env)),
    (ascii "senderAddress", TypedValue.str (o.SenderAddress.Hex env)),
    (ascii "feeRecipientAddress", TypedValue.str (o.FeeRecipientAddress.Hex env)),
    (ascii "makerAssetData", TypedValue.bytes o.MakerAssetData),
    (ascii "makerFeeAssetData", TypedValue.bytes o.MakerFeeAssetData),
    (ascii "takerAssetData", TypedValue.bytes o.TakerAssetData),
    (ascii "takerFeeAssetData", TypedValue.bytes o.TakerFeeAssetData),
    (ascii "salt", TypedValue.str (big_Int_String o.Salt)),
    (ascii "makerFee", TypedValue.str (big_Int_String o.MakerFee)),
    (ascii "takerFee", TypedValue.str (big_Int_String o.TakerFee)),
    (ascii "makerAssetAmount", TypedValue.str (big_Int_String o.MakerAssetAmount)),
    (ascii "takerAssetAmount", TypedValue.str (big_Int_String o.TakerAssetAmount)),
    (ascii "expirationTimeSeconds", TypedValue.str (big_Int_String o.ExpirationTimeSeconds)) ]

/-- Go `(*Order).ComputeOrderHash`.  The result is `none` when the call panics (nil
`ChainID` with no cached hash), else the returned `(common.Hash, error)` pair and
the order afterwards. -/
def Order.ComputeOrderHash (env : Env) (o : Order) : Option ((Hash × Option Error) × Order) :=
  match o.hash with
  | some h => some ((h, none), o)
  | none =>
    match big_Int_Int64 o.ChainID with
    | none => none
    | some chainID =>
      let domain := orderDomain env o chainID
      let message := orderMessage env o
      match env.HashStruct (ascii "EIP712Domain") domain.Map with
      | Except.error err => some ((Hash.zero, some err), o)
      | Except.ok domainSeparator =>
        match env.HashStruct (ascii "Order") message with
        | Except.error err => some ((Hash.zero, some err), o)
        | Except.ok typedDataHash =>
          let hash := common_BytesToHash (env.Keccak256 ([0x19, 0x01] ++ domainSeparator ++ typedDataHash))
          some ((hash, none), { o with hash := some hash })

/-! ## Signing -/

/-- An `ECSignature`: the recovery byte and the two halves. -/
structure ECSignature where
  V : Byte
  R : Bytes
  S : Bytes
  deriving DecidableEq

/-- A `Signer`: `EthSign(message, signerAddress)` yields a signature or an error, and
may change the signer (state `σ`). -/
structure Signer (σ : Type) where
  EthSign : σ → Bytes → Address → Except Error ECSignature × σ

/-- Go `copy(dst[lo:hi], src)`: the first `min (hi - lo) (len src)` bytes of `src`
overwrite `dst` from `lo`. -/
def copySlice (dst : Bytes) (lo hi : Nat) (src : Bytes) : Bytes :=
  let n := min (hi - lo) src.length
  dst.take lo ++ src.take n ++ dst.drop (lo + n)

/-- What a call of `SignOrder` leaves behind: the returned pair, the order behind the
pointer, the signer, and the `EthSign` requests made, in order. -/
structure SignOrderOutcome (σ : Type) where
  signedOrder : Option SignedOrder
  err : Option Error
  order : Option Order
  signer : σ
  calls : List (Bytes × Address)

/-- Go `SignOrder(signer, order)`; `order = none` is the nil pointer.  The result is
`none` when the call panics. -/
def SignOrder {σ : Type} (env : Env) (signer : Signer σ) (st : σ) (order : Option Order) :
    Option (SignOrderOutcome σ) :=
  match order with
  | none =>
    some { signedOrder := none, err := some "cannot sign nil order", order := none,
           signer := st, calls := [] }
  | some o =>
    match o.ComputeOrderHash env with
    | none => none
    | some ((_, some err), o1) =>
      some { signedOrder := none, err := some err, order := some o1, signer := st, calls := [] }
    | some ((orderHash, none), o1) =>
      match signer.EthSign st orderHash.val o1.MakerAddress with
      | (Except.error err, st1) =>
        some { signedOrder := none, err := some err, order := some o1, signer := st1,
               calls := [(orderHash.val, o1.MakerAddress)] }
      | (Except.ok ecSignature, st1) =>
        let signature0 : Bytes := List.replicate 66 0
        let signature1 := signature0.set 0 ecSignature.V
        let signature2 := copySlice signature1 1 33 ecSignature.R
        let signature3 := copySlice signature2 33 65 ecSignature.S
        let signature := signature3.set 65 env.EthSignSignature
        some { signedOrder := some { toOrder := o1, Signature := signature }, err := none,
               order := some o1, signer := st1,
               calls := [(orderHash.val, o1.MakerAddress)] }

/-! ## The trimmed form -/

/-- The struct `wrappers.TrimmedOrder`, with the fields `Trim` fills. -/
structure TrimmedOrder where
  MakerAddress : Address
  TakerAddress : Address
  FeeRecipientAddress : Address
  SenderAddress : Address
  MakerAssetAmount : Option Int
  TakerAssetAmount : Option Int
  MakerFee : Option Int
  TakerFee : Option Int
  ExpirationTimeSeconds : Option Int
  Salt : Option Int
  MakerAssetData : Bytes
  MakerFeeAssetData : Bytes
  TakerAssetData : Bytes
  TakerFeeAssetData : Bytes
  deriving DecidableEq

/-- Go `(*SignedOrder).Trim`. -/
def SignedOrder.Trim (s : SignedOrder) : TrimmedOrder :=
  { MakerAddress := s.MakerAddress
    TakerAddress := s.TakerAddress
    FeeRecipientAddress := s.FeeRecipientAddress
    SenderAddress := s.SenderAddress
    MakerAssetAmount := s.MakerAssetAmount
    TakerAssetAmount := s.TakerAssetAmount
    MakerFee := s.MakerFee
    TakerFee := s.TakerFee
    ExpirationTimeSeconds := s.ExpirationTimeSeconds
    Salt := s.Salt
    MakerAssetData := s.MakerAssetData
    MakerFeeAssetData := s.MakerFeeAssetData
    TakerAssetData := s.TakerAssetData
    TakerFeeAssetData := s.TakerFeeAssetData }

/-- Go `FromTrimmedOrder`: the fields not named in the literal keep their zero value. -/
def FromTrimmedOrder (order : TrimmedOrder) : Order :=
  { ChainID := none
    ExchangeAddress := Address.zero
    MakerAddress := order.MakerAddress
    MakerAssetData := order.MakerAssetData
    MakerFeeAssetData := order.MakerFeeAssetData
    MakerAssetAmount := order.MakerAssetAmount
    MakerFee := order.MakerFee
    TakerAddress := order.TakerAddress
    TakerAssetData := order.TakerAssetData
    TakerFeeAssetData := order.TakerFeeAssetData
    TakerAssetAmount := order.TakerAssetAmount
    TakerFee := order.TakerFee
    SenderAddress := order.SenderAddress
    FeeRecipientAddress := order.FeeRecipientAddress
    ExpirationTimeSeconds := order.ExpirationTimeSeconds
    Salt := order.Salt
    hash := none }

/-! ## `encoding/json`, for the one struct type it is used with

JSON text is represented by the document it denotes: an object is the list of its
members in order of appearance, with decoded (unescaped) keys and string values. -/

/-- A member value of a JSON object: `null`, an integer number literal, a string, or
anything else (a number with a fraction or exponent, a boolean, an array, an
object). -/
inductive JSONValue where
  | null
  | number (n : Int)
  | string (s : Bytes)
  | other
  deriving DecidableEq, Repr

/-- A JSON object. -/
abbrev JSONObject := List (Bytes × JSONValue)

/-- The struct `SignedOrderJSON`; `ChainID` is an `int64`. -/
structure SignedOrderJSON where
  ChainID : Int
  ExchangeAddress : Bytes
  MakerAddress : Bytes
  MakerAssetData : Bytes
  MakerFeeAssetData : Bytes
  MakerAssetAmount : Bytes
  MakerFee : Bytes
  TakerAddress : Bytes
  TakerAssetData : Bytes
  TakerFeeAssetData : Bytes
  TakerAssetAmount : Bytes
  TakerFee : Bytes
  SenderAddress : Bytes
  FeeRecipientAddress : Bytes
  ExpirationTimeSeconds : Bytes
  Salt : Bytes
  Signature : Bytes
  deriving DecidableEq

/-- The zero value of `SignedOrderJSON`. -/
def SignedOrderJSON.zero : SignedOrderJSON :=
  { ChainID := 0, ExchangeAddress := [], MakerAddress := [], MakerAssetData := [],
    MakerFeeAssetData := [], MakerAssetAmount := [], MakerFee := [], TakerAddress := [],
    TakerAssetData := [], TakerFeeAssetData := [], TakerAssetAmount := [], TakerFee := [],
    SenderAddress := [], FeeRecipientAddress := [], ExpirationTimeSeconds := [], Salt := [],
    Signature := [] }

/-- Go `json.Marshal` of a `SignedOrderJSON`: one member per field, in declaration
order, under the name of the field tag; the `int64` is a number, a `string` is a
string. -/
def json_Marshal (v : SignedOrderJSON) : JSONObject :=
  [ (ascii "chainId", JSONValue.number v.ChainID),
    (ascii "exchangeAddress", JSONValue.string v.ExchangeAddress),
    (ascii "makerAddress", JSONValue.string v.MakerAddress),
    (ascii "makerAssetData", JSONValue.string v.MakerAssetData),
    (ascii "makerFeeAssetData", JSONValue.string v.MakerFeeAssetData),
    (ascii "makerAssetAmount", JSONValue.string v.MakerAssetAmount),
    (ascii "makerFee", JSONValue.string v.MakerFee),
    (ascii "takerAddress", JSONValue.string v.TakerAddress),
    (ascii "takerAssetData", JSONValue.string v.TakerAssetData),
    (ascii "takerFeeAssetData", JSONValue.string v.TakerFeeAssetData),
    (ascii "takerAssetAmount", JSONValue.string v.TakerAssetAmount),
    (ascii "takerFee", JSONValue.string v.TakerFee),
    (ascii "senderAddress", JSONValue.string v.SenderAddress),
    (ascii "feeRecipientAddress", JSONValue.string v.FeeRecipientAddress),
    (ascii "expirationTimeSeconds", JSONValue.string v.ExpirationTimeSeconds),
    (ascii "salt", JSONValue.string v.Salt),
    (ascii "signature", JSONValue.string v.Signature) ]

/-- The fields of `SignedOrderJSON`. -/
inductive Field where
  | ChainID | ExchangeAddress | MakerAddress | MakerAssetData | MakerFeeAssetData
  | MakerAssetAmount | MakerFee | TakerAddress | TakerAssetData | TakerFeeAssetData
  | TakerAssetAmount | TakerFee | SenderAddress | FeeRecipientAddress
  | ExpirationTimeSeconds | Salt | Signature
  deriving DecidableEq, Repr

/-- The fields in declaration order. -/
def Field.all : List Field :=
  [ Field.ChainID, Field.ExchangeAddress, Field.MakerAddress, Field.MakerAssetData,
    Field.MakerFeeAssetData, Field.MakerAssetAmount, Field.MakerFee, Field.TakerAddress,
    Field.TakerAssetData, Field.TakerFeeAssetData, Field.TakerAssetAmount, Field.TakerFee,
    Field.SenderAddress, Field.FeeRecipientAddress, Field.ExpirationTimeSeconds, Field.Salt,
    Field.Signature ]

/-- The `json` tag of a field. -/
def Field.tag : Field → Bytes
  | Field.ChainID => ascii "chainId"
  | Field.ExchangeAddress => ascii "exchangeAddress"
  | Field.MakerAddress => ascii "makerAddress"
  | Field.MakerAssetData => ascii "makerAssetData"
  | Field.MakerFeeAssetData => ascii "makerFeeAssetData"
  | Field.MakerAssetAmount => ascii "makerAssetAmount"
  | Field.MakerFee => ascii "makerFee"
  | Field.TakerAddress => ascii "takerAddress"
  | Field.TakerAssetData => ascii "takerAssetData"
  | Field.TakerFeeAssetData => ascii "takerFeeAssetData"
  | Field.TakerAssetAmount => ascii "takerAssetAmount"
  | Field.TakerFee => ascii "takerFee"
  | Field.SenderAddress => ascii "senderAddress"
  | Field.FeeRecipientAddress => ascii "feeRecipientAddress"
  | Field.ExpirationTimeSeconds => ascii "expirationTimeSeconds"
  | Field.Salt => ascii "salt"
  | Field.Signature => ascii "signature"

/-- Case folding of a member name as in `bytes.EqualFold` against an ASCII field
name: ASCII letters are upper-cased, the Kelvin sign (`E2 84 AA`) folds to `K` and
the long s (`C5 BF`) to `S`.  `skip` counts bytes of a folded character still to
drop. -/
def foldName : Nat → Bytes → Bytes
  | _, [] => []
  | skip + 1, _ :: rest => foldName skip rest
  | 0, c :: rest =>
    if c = 0xE2 ∧ rest.take 2 = [0x84, 0xAA] then 75 :: foldName 2 rest
    else if c = 0xC5 ∧ rest.take 1 = [0xBF] then 83 :: foldName 1 rest
    else (if 97 ≤ c.val ∧ c.val ≤ 122 then Fin.ofNat (c.val - 32) else c) :: foldName 0 rest

/-- The field a member name selects: the first field whose tag equals the name,
else the first whose tag equals it under case folding.  (The tags differ pairwise
under folding, so this is the field whose folded tag is the folded name.) -/
def lookupField (key : Bytes) : Option Field :=
  match Field.all.find? (fun f => f.tag = key) with
  | some f => some f
  | none => Field.all.find? (fun f => foldName 0 f.tag = foldName 0 key)

/-- Storing a decoded string in a string field. -/
def SignedOrderJSON.setString (v : SignedOrderJSON) (f : Field) (s : Bytes) : SignedOrderJSON :=
  match f with
  | Field.ChainID => v
  | Field.ExchangeAddress => { v with ExchangeAddress := s }
  | Field.MakerAddress => { v with MakerAddress := s }
  | Field.MakerAssetData => { v with MakerAssetData := s }
  | Field.MakerFeeAssetData => { v with MakerFeeAssetData := s }
  | Field.MakerAssetAmount => { v with MakerAssetAmount := s }
  | Field.MakerFee => { v with MakerFee := s }
  | Field.TakerAddress => { v with TakerAddress := s }
  | Field.TakerAssetData => { v with TakerAssetData := s }
  | Field.TakerFeeAssetData => { v with TakerFeeAssetData := s }
  | Field.TakerAssetAmount => { v with TakerAssetAmount := s }
  | Field.TakerFee => { v with TakerFee := s }
  | Field.SenderAddress => { v with SenderAddress := s }
  | Field.FeeRecipientAddress => { v with FeeRecipientAddress := s }
  | Field.ExpirationTimeSeconds => { v with ExpirationTimeSeconds := s }
  | Field.Salt => { v with Salt := s }
  | Field.Signature => { v with Signature := s }

/-- The error `json.Unmarshal` reports for a value that does not fit the field. -/
def unmarshalTypeError : Error := "json: cannot unmarshal value into Go struct field"

/-- Decoding one member value into a field: `null` changes nothing; the `int64` field
takes an integer number in range, a string field takes a string; anything else is a
type error. -/
def decodeMember (v : SignedOrderJSON) (f : Field) (x : JSONValue) : Except Error SignedOrderJSON :=
  match x with
  | JSONValue.null => Except.ok v
  | JSONValue.number n =>
    if f = Field.ChainID then
      if -(2 : Int) ^ 63 ≤ n ∧ n < 2 ^ 63 then Except.ok { v with ChainID := n }
      else Except.error unmarshalTypeError
    else Except.error unmarshalTypeError
  | JSONValue.string s =>
    if f = Field.ChainID then Except.error unmarshalTypeError
    else Except.ok (v.setString f s)
  | JSONValue.other => Except.error unmarshalTypeError

/-- The member loop of `json.Unmarshal` into a `SignedOrderJSON`: members are decoded
in order (a later duplicate overwrites), unknown names are skipped, and the first
type error is kept and returned at the end. -/
def unmarshalMembers : JSONObject → SignedOrderJSON → Option Error → SignedOrderJSON × Option Error
  | [], v, saved => (v, saved)
  | (key, x) :: rest, v, saved =>
    match lookupField key with
    | none => unmarshalMembers rest v saved
    | some f =>
      match decodeMember v f x with
      | Except.ok v1 => unmarshalMembers rest v1 saved
      | Except.error err => unmarshalMembers rest v (match saved with | some e => some e | none => some err)

/-- Go `json.Unmarshal(data, &signedOrderJSON)` for a zero-valued target and `data`
holding a JSON object. -/
def json_Unmarshal (data : JSONObject) : Except Error SignedOrderJSON :=
  match unmarshalMembers data SignedOrderJSON.zero none with
  | (v, none) => Except.ok v
  | (_, some err) => Except.error err

/-! ## The JSON form of a signed order -/

/-- The hex text `MarshalJSON` gives a byte field: `0x` alone for an empty one, else
`fmt.Sprintf("0x%s", common.Bytes2Hex(b))`. -/
def hexField (b : Bytes) : Bytes :=
  if b.length ≠ 0 then ascii "0x" ++ common_Bytes2Hex b else ascii "0x"

/-- The `SignedOrderJSON` value that `MarshalJSON` hands to `json.Marshal`, given the
narrowed chain id. -/
def SignedOrder.toJSON (env : Env) (s : SignedOrder) (chainID : Int) : SignedOrderJSON :=
  { ChainID := chainID
    ExchangeAddress := strings_ToLower (s.ExchangeAddress.Hex env)
    MakerAddress := strings_ToLower (s.MakerAddress.Hex env)
    MakerAssetData := hexField s.MakerAssetData
    MakerFeeAssetData := hexField s.MakerFeeAssetData
    MakerAssetAmount := big_Int_String s.MakerAssetAmount
    MakerFee := big_Int_String s.MakerFee
    TakerAddress := strings_ToLower (s.TakerAddress.Hex env)
    TakerAssetData := hexField s.TakerAssetData
    TakerFeeAssetData := hexField s.TakerFeeAssetData
    TakerAssetAmount := big_Int_String s.TakerAssetAmount
    TakerFee := big_Int_String s.TakerFee
    SenderAddress := strings_ToLower (s.SenderAddress.Hex env)
    FeeRecipientAddress := strings_ToLower (s.FeeRecipientAddress.Hex env)
    ExpirationTimeSeconds := big_Int_String s.ExpirationTimeSeconds
    Salt := big_Int_String s.Salt
    Signature := hexField s.Signature }

/-- Go `SignedOrder.MarshalJSON`.  The result is `none` when the call panics (nil
`ChainID`), else the returned `([]byte, error)` pair. -/
def SignedOrder.MarshalJSON (env : Env) (s : SignedOrder) : Option (JSONObject × Option Error) :=
  match big_Int_Int64 s.ChainID with
  | none => none
  | some chainID => some (json_Marshal (s.toJSON env chainID), none)

/-- The assignment, guarded by `!= ""`, of an amount field in `UnmarshalJSON`: the
parsed value, nil when parsing fails, the old value for the empty string. -/
def decodeAmount (old : Option Int) (text : Bytes) : Option Int :=
  if text ≠ [] then math_ParseBig256 text else old

/-- Go `(*SignedOrder).UnmarshalJSON`: the returned error and the receiver afterwards. -/
def SignedOrder.UnmarshalJSON (s : SignedOrder) (data : JSONObject) : Option Error × SignedOrder :=
  match json_Unmarshal data with
  | Except.error err => (some err, s)
  | Except.ok signedOrderJSON =>
    (none,
      { ChainID := big_NewInt signedOrderJSON.ChainID
        ExchangeAddress := common_HexToAddress signedOrderJSON.ExchangeAddress
        MakerAddress := common_HexToAddress signedOrderJSON.MakerAddress
        MakerAssetData := common_FromHex signedOrderJSON.MakerAssetData
        MakerFeeAssetData := common_FromHex signedOrderJSON.MakerFeeAssetData
        MakerAssetAmount := decodeAmount s.MakerAssetAmount signedOrderJSON.MakerAssetAmount
        MakerFee := decodeAmount s.MakerFee signedOrderJSON.MakerFee
        TakerAddress := common_HexToAddress signedOrderJSON.TakerAddress
        TakerAssetData := common_FromHex signedOrderJSON.TakerAssetData
        TakerFeeAssetData := common_FromHex signedOrderJSON.TakerFeeAssetData
        TakerAssetAmount := decodeAmount s.TakerAssetAmount signedOrderJSON.TakerAssetAmount
        TakerFee := decodeAmount s.TakerFee signedOrderJSON.TakerFee
        SenderAddress := common_HexToAddress signedOrderJSON.SenderAddress
        FeeRecipientAddress := common_HexToAddress signedOrderJSON.FeeRecipientAddress
        ExpirationTimeSeconds :=
          decodeAmount s.ExpirationTimeSeconds signedOrderJSON.ExpirationTimeSeconds
        Salt := decodeAmount s.Salt signedOrderJSON.Salt
        hash := s.hash
        Signature := common_FromHex signedOrderJSON.Signature })

/-! ## Example parameters

Stand-ins for the hash primitives, used to evaluate the definitions on concrete
orders: the digest of a message is a 256-bit polynomial checksum of its bytes, the
struct hash of a map is the text of its entries. -/

/-- A 256-bit checksum of a byte sequence, as 32 big-endian bytes. -/
def exampleDigest (b : Bytes) : Bytes :=
  let h := b.foldl (fun acc x => (acc * 257 + x.val + 1) % 2 ^ 256) 0
  (List.range 32).map (fun i => Fin.ofNat (h / 256 ^ (31 - i) % 256))

/-- The primary type followed by the names and values of the entries. -/
def exampleHashBytes (primaryType : Bytes) (data : TypedDataMessage) : Bytes :=
  primaryType ++ (data.map (fun e =>
    e.1 ++ (match e.2 with
      | TypedValue.str s => s
      | TypedValue.bytes b => b
      | TypedValue.int z => big_Int_String (some z)))).flatten

/-- A struct hash that never fails. -/
def exampleHashStruct (primaryType : Bytes) (data : TypedDataMessage) : Except Error Bytes :=
  Except.ok (exampleHashBytes primaryType data)

/-- Example parameters; the scheme tag is 3. -/
def exampleEnv : Env :=
  { Keccak256 := exampleDigest
    Keccak256_length := fun b => by simp [exampleDigest]
    HashStruct := exampleHashStruct
    EthSignSignature := 3 }

/-- The address whose 20 bytes are all `b`. -/
def Address.fill (b : Byte) : Address := ⟨List.replicate 20 b, by simp⟩

/-- An example order: chain id 1, exchange address `0x00..01`, maker address
`0xaa..aa`, maker amount 1000, taker amount 2000, salt 42, no fee data. -/
def exampleOrder : Order :=
  { ChainID := some 1
    ExchangeAddress := ⟨List.replicate 19 0 ++ [1], by simp⟩
    MakerAddress := Address.fill 0xaa
    MakerAssetData := [0xf4, 0x72, 0x61, 0xb0]
    MakerFeeAssetData := []
    MakerAssetAmount := some 1000
    MakerFee := some 0
    TakerAddress := Address.zero
    TakerAssetData := [0xf4, 0x72, 0x61, 0xb0, 0x01]
    TakerFeeAssetData := []
    TakerAssetAmount := some 2000
    TakerFee := some 0
    SenderAddress := Address.zero
    FeeRecipientAddress := Address.fill 0xbb
    ExpirationTimeSeconds := some 0
    Salt := some 42
    hash := none }

/-! ## Predicates used in the statements -/

/-- A lowercase hex digit: `0`..`9` or `a`..`f`. -/
def isLowerHex (c : Byte) : Prop := (48 ≤ c.val ∧ c.val ≤ 57) ∨ (97 ≤ c.val ∧ c.val ≤ 102)

instance (c : Byte) : Decidable (isLowerHex c) := by unfold isLowerHex; infer_instance


/-- The base-10 representation of a natural number as the spec understands it: the
digits of `Nat.digits 10`, most significant first, as ASCII; `0` for zero. -/
def decimalText (n : Nat) : Bytes :=
  if n = 0 then [48] else (Nat.digits 10 n).reverse.map (fun d => (Fin.ofNat (48 + d) : Byte))

/-- A string of ASCII digits `0`..`9`. -/
def allDigits (text : Bytes) : Prop := ∀ c ∈ text, 48 ≤ c.val ∧ c.val ≤ 57

/-- An integer field that is set to a value in `[0, bound)`. -/
def setBelow (x : Option Int) (bound : Int) : Prop :=
  match x with
  | some a => 0 ≤ a ∧ a < bound
  | none => False

instance (x : Option Int) (bound : Int) : Decidable (setBelow x bound) := by
  unfold setBelow
  cases x <;> infer_instance

/-- Encoding a signed order with `MarshalJSON` and decoding the result with
`UnmarshalJSON` into a zero-valued `SignedOrder`: `none` when encoding panics, else
the error of the decoding and the decoded order. -/
def roundTrip (env : Env) (s : SignedOrder) : Option (Option Error × SignedOrder) :=
  match s.MarshalJSON env with
  | none => none
  | some (data, _) => some (SignedOrder.zero.UnmarshalJSON data)

/-- The example order with a 66-byte signature. -/
def exampleSignedOrder : SignedOrder :=
  { toOrder := exampleOrder
    Signature := 27 :: (List.replicate 32 0x11 ++ List.replicate 32 0x22 ++ [3]) }

/-- The example signed order with chain id `2^63`. -/
def wideChainOrder : SignedOrder :=
  { exampleSignedOrder with ChainID := some (2 ^ 63) }

/-- The example signed order with maker asset amount `2^256`. -/
def wideAmountOrder : SignedOrder :=
  { exampleSignedOrder with MakerAssetAmount := some (2 ^ 256) }

/-- An example signer: it counts the requests it has served, and signs with `V = 27`,
`R` the message fitted to 32 bytes and `S` made of the byte `0x22`. -/
def exampleSigner : Signer Nat :=
  { EthSign := fun st message _ =>
      (Except.ok { V := 27, R := (setBytes 32 message).val, S := List.replicate 32 0x22 },
        st + 1) }

/-- The hash `ComputeOrderHash` returns for the example order under the example
parameters. -/
def exampleOrderHash : Hash :=
  match exampleOrder.ComputeOrderHash exampleEnv with
  | some ((h, _), _) => h
  | none => Hash.zero

/-- The example order with its hash cached. -/
def exampleHashedOrder : Order := { exampleOrder with hash := some exampleOrderHash }

/-- The signature the example signer gives for the example order hash. -/
def exampleSignature : ECSignature :=
  { V := 27, R := (setBytes 32 exampleOrderHash.val).val, S := List.replicate 32 0x22 }

/-- The base-10 representation of an integer: a `-` before the representation of the
magnitude when it is negative. -/
def intDecimalText (z : Int) : Bytes :=
  if z < 0 then 45 :: decimalText z.natAbs else decimalText z.natAbs

/-- The domain map of the example order, as C5 describes it. -/
def exampleDomainMap : TypedDataMessage :=
  [ (ascii "chainId", TypedValue.int (wrapInt64 1)),
    (ascii "name", TypedValue.str (ascii "0x Protocol")),
    (ascii "version", TypedValue.str (ascii "3.0.0")),
    (ascii "verifyingContract", TypedValue.str (exampleOrder.ExchangeAddress.Hex exampleEnv)) ]

/-- The message map of the example order, as C5 describes it. -/
def exampleMessageMap : TypedDataMessage :=
  [ (ascii "makerAddress", TypedValue.str (exampleOrder.MakerAddress.Hex exampleEnv)),
    (ascii "takerAddress", TypedValue.str (exampleOrder.TakerAddress.Hex exampleEnv)),
    (ascii "senderAddress", TypedValue.str (exampleOrder.SenderAddress.Hex exampleEnv)),
    (ascii "feeRecipientAddress", TypedValue.str (exampleOrder.FeeRecipientAddress.Hex exampleEnv)),
    (ascii "makerAssetData", TypedValue.bytes exampleOrder.MakerAssetData),
    (ascii "makerFeeAssetData", TypedValue.bytes exampleOrder.MakerFeeAssetData),
    (ascii "takerAssetData", TypedValue.bytes exampleOrder.TakerAssetData),
    (ascii "takerFeeAssetData", TypedValue.bytes exampleOrder.TakerFeeAssetData),
    (ascii "salt", TypedValue.str (intDecimalText 42)),
    (ascii "makerFee", TypedValue.str (intDecimalText 0)),
    (ascii "takerFee", TypedValue.str (intDecimalText 0)),
    (ascii "makerAssetAmount", TypedValue.str (intDecimalText 1000)),
    (ascii "takerAssetAmount", TypedValue.str (intDecimalText 2000)),
    (ascii "expirationTimeSeconds", TypedValue.str (intDecimalText 0)) ]

/-! ## States of an order -/

/-- Assignment to fields of an order in place: the 16 fields take the values they have
in `fields`, the cached hash stays as it is. -/
def Order.assign (o fields : Order) : Order := { fields with hash := o.hash }

/-- Identical values in the 16 fields; the cached hash is not compared. -/
def sameFields (o1 o2 : Order) : Prop := o1.ResetHash = o2.ResetHash

instance (o1 o2 : Order) : Decidable (sameFields o1 o2) := by
  unfold sameFields; infer_instance

/-- The `(common.Hash, error)` pair `ComputeOrderHash` returns, `none` if it panics. -/
def Order.hashResult (env : Env) (o : Order) : Option (Hash × Option Error) :=
  match o.ComputeOrderHash env with
  | some (r, _) => some r
  | none => none

/-- The states of an order reachable from a newly built order (no cached hash) by
field assignment, `ResetHash` and `ComputeOrderHash`. -/
inductive Reachable (env : Env) : Order → Prop where
  | fresh (o : Order) : o.hash = none → Reachable env o
  | assign (o fields : Order) : Reachable env o → Reachable env (o.assign fields)
  | resetHash (o : Order) : Reachable env o → Reachable env o.ResetHash
  | computeOrderHash (o o1 : Order) (r : Hash × Option Error) :
      Reachable env o → o.ComputeOrderHash env = some (r, o1) → Reachable env o1

/-- The states reachable when every field assignment is followed by `ResetHash`. -/
inductive ReachableWithReset (env : Env) : Order → Prop where
  | fresh (o : Order) : o.hash = none → ReachableWithReset env o
  | assignReset (o fields : Order) :
      ReachableWithReset env o → ReachableWithReset env (o.assign fields).ResetHash
  | resetHash (o : Order) : ReachableWithReset env o → ReachableWithReset env o.ResetHash
  | computeOrderHash (o o1 : Order) (r : Hash × Option Error) :
      ReachableWithReset env o → o.ComputeOrderHash env = some (r, o1) →
      ReachableWithReset env o1

/-- The example order with salt 43 instead of 42. -/
def resaltedOrder : Order := { exampleOrder with Salt := some 43 }

/-- The example order after `ComputeOrderHash` and then the assignment `Salt = 43`,
with no `ResetHash`. -/
def staleOrder : Order := exampleHashedOrder.assign resaltedOrder

/-- The example signed order with chain id `2^64 + 1`. -/
def wrappedChainOrder : SignedOrder :=
  { exampleSignedOrder with ChainID := some (2 ^ 64 + 1) }

/-- The signed order built from a trimmed order: `FromTrimmedOrder` of the trimmed
example, with the example signature.  Its chain id is nil. -/
def untrimmedOrder : SignedOrder :=
  { toOrder := FromTrimmedOrder exampleSignedOrder.Trim
    Signature := exampleSignedOrder.Signature }

/-- The lowercase hex digit of a value below 16: `0`..`9`, then `a`..`f`. -/
def lowerHexDigit (d : Nat) : Byte :=
  if d < 10 then Fin.ofNat (48 + d) else Fin.ofNat (97 + (d - 10))

/-- Two lowercase hex digits per byte, high nibble first, bytes in order. -/
def lowerHexText (b : Bytes) : Bytes :=
  (b.map (fun v => [lowerHexDigit (v.val / 16), lowerHexDigit (v.val % 16)])).flatten

/-! ## Fields of the wire struct by kind -/

/-- The five address fields. -/
inductive AddressField where
  | ExchangeAddress | MakerAddress | TakerAddress | SenderAddress | FeeRecipientAddress
  deriving DecidableEq, Repr

/-- The `json` tag of an address field. -/
def AddressField.tag : AddressField → Bytes
  | AddressField.ExchangeAddress => ascii "exchangeAddress"
  | AddressField.MakerAddress => ascii "makerAddress"
  | AddressField.TakerAddress => ascii "takerAddress"
  | AddressField.SenderAddress => ascii "senderAddress"
  | AddressField.FeeRecipientAddress => ascii "feeRecipientAddress"

/-- The text of an address field in the wire struct. -/
def AddressField.text (f : AddressField) (v : SignedOrderJSON) : Bytes :=
  match f with
  | AddressField.ExchangeAddress => v.ExchangeAddress
  | AddressField.MakerAddress => v.MakerAddress
  | AddressField.TakerAddress => v.TakerAddress
  | AddressField.SenderAddress => v.SenderAddress
  | AddressField.FeeRecipientAddress => v.FeeRecipientAddress

/-- The value of an address field in an order. -/
def AddressField.value (f : AddressField) (o : Order) : Address :=
  match f with
  | AddressField.ExchangeAddress => o.ExchangeAddress
  | AddressField.MakerAddress => o.MakerAddress
  | AddressField.TakerAddress => o.TakerAddress
  | AddressField.SenderAddress => o.SenderAddress
  | AddressField.FeeRecipientAddress => o.FeeRecipientAddress

/-- An ASCII upper-case letter `A`..`Z`. -/
def isUpper (c : Byte) : Prop := 65 ≤ c.val ∧ c.val ≤ 90

instance (c : Byte) : Decidable (isUpper c) := by unfold isUpper; infer_instance

/-- The signed order built from a trimmed order, with an exchange address assigned
afterwards; its chain id is nil. -/
def untrimmedAddressOrder : SignedOrder :=
  { untrimmedOrder with ExchangeAddress := Address.fill 0xbb }

/-- The six amount fields. -/
inductive AmountField where
  | MakerAssetAmount | MakerFee | TakerAssetAmount | TakerFee | ExpirationTimeSeconds | Salt
  deriving DecidableEq, Repr

/-- The field of the wire struct an amount field is. -/
def AmountField.toField : AmountField → Field
  | AmountField.MakerAssetAmount => Field.MakerAssetAmount
  | AmountField.MakerFee => Field.MakerFee
  | AmountField.TakerAssetAmount => Field.TakerAssetAmount
  | AmountField.TakerFee => Field.TakerFee
  | AmountField.ExpirationTimeSeconds => Field.ExpirationTimeSeconds
  | AmountField.Salt => Field.Salt

/-- The text of an amount field in the wire struct. -/
def AmountField.text (f : AmountField) (v : SignedOrderJSON) : Bytes :=
  match f with
  | AmountField.MakerAssetAmount => v.MakerAssetAmount
  | AmountField.MakerFee => v.MakerFee
  | AmountField.TakerAssetAmount => v.TakerAssetAmount
  | AmountField.TakerFee => v.TakerFee
  | AmountField.ExpirationTimeSeconds => v.ExpirationTimeSeconds
  | AmountField.Salt => v.Salt

/-- The wire struct with the text of one amount field replaced. -/
def AmountField.setText (f : AmountField) (v : SignedOrderJSON) (t : Bytes) : SignedOrderJSON :=
  v.setString f.toField t

/-- The value of an amount field in an order. -/
def AmountField.value (f : AmountField) (o : Order) : Option Int :=
  match f with
  | AmountField.MakerAssetAmount => o.MakerAssetAmount
  | AmountField.MakerFee => o.MakerFee
  | AmountField.TakerAssetAmount => o.TakerAssetAmount
  | AmountField.TakerFee => o.TakerFee
  | AmountField.ExpirationTimeSeconds => o.ExpirationTimeSeconds
  | AmountField.Salt => o.Salt

/-- The signed order with the value of one amount field replaced. -/
def AmountField.setValue (f : AmountField) (s : SignedOrder) (x : Option Int) : SignedOrder :=
  match f with
  | AmountField.MakerAssetAmount => { s with MakerAssetAmount := x }
  | AmountField.MakerFee => { s with MakerFee := x }
  | AmountField.TakerAssetAmount => { s with TakerAssetAmount := x }
  | AmountField.TakerFee => { s with TakerFee := x }
  | AmountField.ExpirationTimeSeconds => { s with ExpirationTimeSeconds := x }
  | AmountField.Salt => { s with Salt := x }

/-! ## Integer text, as the spec understands it -/

/-- A decimal digit `0`..`9`. -/
def isDecimalDigit (c : Byte) : Bool := decide (48 ≤ c.val ∧ c.val ≤ 57)

/-- A hexadecimal digit `0`..`9`, `a`..`f` or `A`..`F`. -/
def isHexDigit (c : Byte) : Bool :=
  decide ((48 ≤ c.val ∧ c.val ≤ 57) ∨ (97 ≤ c.val ∧ c.val ≤ 102) ∨ (65 ≤ c.val ∧ c.val ≤ 70))

/-- An optional sign `-` or `+` followed by one or more digits, and nothing else. -/
def isSignedDigits (digit : Byte → Bool) (text : Bytes) : Bool :=
  match text with
  | [] => false
  | ch :: rest =>
    let body := if ch = 45 ∨ ch = 43 then rest else text
    !body.isEmpty && body.all digit

/-- A string that parses as a decimal integer. -/
def isDecimalInteger (text : Bytes) : Bool := isSignedDigits isDecimalDigit text

/-- A string that parses as a hexadecimal integer: `0x` or `0X`, then an optional sign
and hex digits. -/
def isHexInteger (text : Bytes) : Bool :=
  has0xPrefix text && isSignedDigits isHexDigit (text.drop 2)

/-- The wire object of the example signed order with the given members put in front of
it or behind it. -/
def exampleWire (front back : JSONObject) : JSONObject :=
  front ++ json_Marshal (exampleSignedOrder.toJSON exampleEnv 1) ++ back

/-- The example signed order with maker asset amount 7, as a receiver that is used
again. -/
def usedReceiver : SignedOrder := { exampleSignedOrder with MakerAssetAmount := some 7 }

/-! ## Hex text, as the spec understands it -/

/-- The hex digits `common.FromHex` looks at: the string without its optional `0x`
prefix, left-padded with `0` when its length is odd. -/
def hexBody (s : Bytes) : Bytes :=
  let s1 := if has0xPrefix s then s.drop 2 else s
  if s1.length % 2 = 1 then 48 :: s1 else s1

/-- The string without its optional `0x` prefix. -/
def withoutHexPrefix (s : Bytes) : Bytes := if has0xPrefix s then s.drop 2 else s

/-- The text spells the bytes in hex: two hex digits (of either case) per byte, high
nibble first. -/
def hexSpells : Bytes → Bytes → Prop
  | [], [] => True
  | p :: q :: text, b :: bytes =>
    (∃ hi lo, fromHexChar p = some hi ∧ fromHexChar q = some lo ∧ b.val = hi * 16 + lo)
      ∧ hexSpells text bytes
  | _, _ => False

/-- The text starts with a pair of characters that is not two hex digits (or is a
single character). -/
def startsMalformed : Bytes → Prop
  | [] => False
  | [_] => True
  | p :: q :: _ => fromHexChar p = none ∨ fromHexChar q = none

/-- The address whose last byte is `b` and whose other bytes are zero. -/
def Address.last (b : Byte) : Address := ⟨List.replicate 19 0 ++ [b], by simp⟩

/-- A receiver on which `ComputeOrderHash` has stored the hash of the example order. -/
def hashedReceiver : SignedOrder :=
  { toOrder := exampleHashedOrder, Signature := exampleSignedOrder.Signature }

/-- A signer that refuses every request (and counts it). -/
def failingSigner : Signer Nat :=
  { EthSign := fun st _ _ => (Except.error "signer refused", st + 1) }

/-- The example parameters with a struct hash that always fails. -/
def failingEnv : Env :=
  { exampleEnv with HashStruct := fun _ _ => Except.error "hash failed" }

/-- The `(common.Hash, error)` pair that hashing a domain map and a message map gives:
the zero hash and the error of the first struct hash that fails, else the digest of
`0x19 0x01`, the domain separator and the message hash. -/
def hashOutcome (env : Env) (domainMap messageMap : TypedDataMessage) : Hash × Option Error :=
  match env.HashStruct (ascii "EIP712Domain") domainMap with
  | Except.error err => (Hash.zero, some err)
  | Except.ok domainSeparator =>
    match env.HashStruct (ascii "Order") messageMap with
    | Except.error err => (Hash.zero, some err)
    | Except.ok typedDataHash =>
      (common_BytesToHash (env.Keccak256 ([0x19, 0x01] ++ domainSeparator ++ typedDataHash)), none)

/-- A wire object with a chain id, an empty maker asset amount, and nothing else (so the
salt is missing). -/
def sparseWire : JSONObject :=
  [ (ascii "chainId", JSONValue.number 5),
    (ascii "makerAssetAmount", JSONValue.string []) ]

/-- A wire object with `chainId` as the string `1` (as in the wire table of the spec)
and maker asset amount `1000`. -/
def stringChainAmountWire : JSONObject :=
  [ (ascii "chainId", JSONValue.string (ascii "1")),
    (ascii "makerAssetAmount", JSONValue.string (ascii "1000")) ]

/-- A wire object with `chainId` as the string `1`, maker address `0x01`, and no salt. -/
def stringChainSaltlessWire : JSONObject :=
  [ (ascii "chainId", JSONValue.string (ascii "1")),
    (ascii "makerAddress", JSONValue.string (ascii "0x01")) ]

/-! # Theorems -/

/-! ## Hex text -/

theorem hextable_lower (d : Nat) (hd : d < 16) : isLowerHex (hextable.getD d 0) := by
  interval_cases d <;> decide

theorem fromHexChar_hextable (d : Nat) (hd : d < 16) : fromHexChar (hextable.getD d 0) = some d := by
  interval_cases d <;> decide

theorem byte_of_nibbles (v : Byte) : (Fin.ofNat (v.val / 16 * 16 + v.val % 16) : Byte) = v := by
  apply Fin.ext
  have h := v.isLt
  simp only [Fin.ofNat, Fin.val_mk]
  omega

theorem hex_DecodeString_EncodeToString (b : Bytes) :
    hex_DecodeString (hex_EncodeToString b) = (b, true) := by
  induction b with
  | nil => rfl
  | cons v rest ih =>
    have h1 : v.val / 16 < 16 := by have := v.isLt; omega
    have h2 : v.val % 16 < 16 := by omega
    simp only [hex_EncodeToString, hex_DecodeString, fromHexChar_hextable _ h1,
      fromHexChar_hextable _ h2, ih, byte_of_nibbles]

theorem hex_EncodeToString_length (b : Bytes) : (hex_EncodeToString b).length = 2 * b.length := by
  induction b with
  | nil => rfl
  | cons v rest ih => simp only [hex_EncodeToString, List.length_cons, ih]; omega

theorem hex_EncodeToString_lower (b : Bytes) : ∀ c ∈ hex_EncodeToString b, isLowerHex c := by
  induction b with
  | nil => intro c hc; simp [hex_EncodeToString] at hc
  | cons v rest ih =>
    intro c hc
    have h1 : v.val / 16 < 16 := by have := v.isLt; omega
    have h2 : v.val % 16 < 16 := by omega
    simp only [hex_EncodeToString, List.mem_cons] at hc
    rcases hc with rfl | rfl | hc
    · exact hextable_lower _ h1
    · exact hextable_lower _ h2
    · exact ih c hc

/-- Decoding `0x` followed by the hex text of `b` gives `b` back. -/
theorem common_FromHex_0x_hex (b : Bytes) :
    common_FromHex (48 :: 120 :: hex_EncodeToString b) = b := by
  have hlen : (hex_EncodeToString b).length % 2 = 0 := by
    rw [hex_EncodeToString_length]; omega
  simp [common_FromHex, has0xPrefix, common_Hex2Bytes, hlen, hex_DecodeString_EncodeToString]

theorem ascii_0x : ascii "0x" = [48, 120] := by decide

theorem common_FromHex_hexField (b : Bytes) : common_FromHex (hexField b) = b := by
  unfold hexField
  by_cases h : b.length ≠ 0
  · rw [if_pos h, ascii_0x]
    exact common_FromHex_0x_hex b
  · rw [if_neg h, ascii_0x]
    have hb : b = [] := List.length_eq_zero.mp (by omega)
    subst hb
    decide

/-! ## Addresses -/

theorem lowerByte_checksumByte (c : Byte) (hc : isLowerHex c) (nibble : Nat) :
    lowerByte (checksumByte c nibble) = c := by
  have hlt := c.isLt
  unfold isLowerHex at hc
  unfold lowerByte checksumByte
  by_cases h : c.val > 57 ∧ nibble > 7
  · have h97 : 97 ≤ c.val ∧ c.val ≤ 102 := by omega
    have e1 : ((Fin.ofNat (c.val - 32) : Byte)).val = c.val - 32 := by
      simp only [Fin.ofNat, Fin.val_mk]; omega
    simp only [if_pos h, e1]
    rw [if_pos (by omega)]
    apply Fin.ext
    simp only [Fin.ofNat, Fin.val_mk]; omega
  · simp only [if_neg h]
    rw [if_neg (by omega)]

theorem strings_ToLower_checksumLoop (hash : Bytes) (digits : Bytes) :
    ∀ k, (∀ c ∈ digits, isLowerHex c) → strings_ToLower (checksumLoop hash k digits) = digits := by
  induction digits with
  | nil => intro k _; rfl
  | cons c rest ih =>
    intro k h
    have hc := h c (List.mem_cons_self _ _)
    have hrest : ∀ x ∈ rest, isLowerHex x := fun x hx => h x (List.mem_cons_of_mem _ hx)
    have ih1 := ih (k + 1) hrest
    unfold strings_ToLower at ih1 ⊢
    simp only [checksumLoop, List.map_cons, ih1, lowerByte_checksumByte c hc]

/-- Lower-casing the checksummed hex of an address gives `0x` and the plain
lowercase hex of its 20 bytes. -/
theorem strings_ToLower_Hex (env : Env) (a : Address) :
    strings_ToLower (a.Hex env) = 48 :: 120 :: hex_EncodeToString a.val := by
  have h := strings_ToLower_checksumLoop (env.Keccak256 (hex_EncodeToString a.val))
    (hex_EncodeToString a.val) 0 (hex_EncodeToString_lower a.val)
  unfold strings_ToLower at h ⊢
  simp only [Address.Hex, List.map_cons, h]
  rfl

theorem setBytes_of_length (n : Nat) (b : Bytes) (h : b.length = n) : (setBytes n b).val = b := by
  simp [setBytes, h]

theorem common_HexToAddress_ToLower_Hex (env : Env) (a : Address) :
    common_HexToAddress (strings_ToLower (a.Hex env)) = a := by
  apply Subtype.ext
  rw [strings_ToLower_Hex]
  simp only [common_HexToAddress, common_BytesToAddress, common_FromHex_0x_hex]
  exact setBytes_of_length 20 a.val a.property

/-! ## Integers -/

theorem wrapInt64_of_range (c : Int) (h0 : -(2 : Int) ^ 63 ≤ c) (h1 : c < 2 ^ 63) :
    wrapInt64 c = c := by
  unfold wrapInt64
  simp only
  split <;> omega

/-- Go `Int64` is truncation to 64 bits in two's complement. -/
theorem big_Int_Int64_eq_wrap (x : Int) : big_Int_Int64 (some x) = some (wrapInt64 x) := by
  unfold big_Int_Int64 wrapInt64
  simp only [Option.some.injEq]
  split <;> split <;> split <;> omega

/-! ## Decimal text -/

theorem decimalDigits_eq (fuel : Nat) :
    ∀ n acc, n < fuel → decimalDigits fuel n acc = decimalText n ++ acc := by
  induction fuel with
  | zero => intro n acc h; omega
  | succ fuel ih =>
    intro n acc h
    unfold decimalDigits
    by_cases h10 : n < 10
    · rw [if_pos h10]
      unfold decimalText
      by_cases h0 : n = 0
      · subst h0; rfl
      · rw [if_neg h0, Nat.digits_of_lt 10 n h0 h10]
        rfl
    · rw [if_neg h10]
      have hlt : n / 10 < fuel := by omega
      rw [ih (n / 10) _ hlt]
      unfold decimalText
      have hq : n / 10 ≠ 0 := by omega
      have hn : n ≠ 0 := by omega
      have e : Nat.digits 10 n = n % 10 :: Nat.digits 10 (n / 10) :=
        Nat.digits_def' (by norm_num) (by omega)
      rw [if_neg hq, if_neg hn, e]
      simp

/-- The text `String` produces is the base-10 representation. -/
theorem natDecimal_eq_decimalText (n : Nat) : natDecimal n = decimalText n := by
  unfold natDecimal
  rw [decimalDigits_eq (n + 1) n [] (by omega)]
  simp

theorem digitValue_digit (d : Nat) (hd : d < 10) :
    digitValue (Fin.ofNat (48 + d) : Byte) = some d := by
  interval_cases d <;> decide

theorem scanDigits_map (l : List Nat) (hl : ∀ d ∈ l, d < 10) :
    ∀ acc, scanDigits 10 acc (l.map (fun d => (Fin.ofNat (48 + d) : Byte)))
      = some (l.foldl (fun a d => a * 10 + d) acc) := by
  induction l with
  | nil => intro acc; rfl
  | cons d rest ih =>
    intro acc
    have hd : d < 10 := hl d (List.mem_cons_self _ _)
    have hrest : ∀ x ∈ rest, x < 10 := fun x hx => hl x (List.mem_cons_of_mem _ hx)
    simp only [List.map_cons, scanDigits, digitValue_digit d hd, if_pos hd, List.foldl_cons]
    exact ih hrest _

theorem foldl_reverse_digits (l : List Nat) :
    l.reverse.foldl (fun a d => a * 10 + d) 0 = Nat.ofDigits 10 l := by
  induction l with
  | nil => rfl
  | cons d rest ih =>
    simp only [List.reverse_cons, List.foldl_append, List.foldl_cons, List.foldl_nil, ih,
      Nat.ofDigits_cons]
    omega

/-- Scanning the base-10 representation of `n` gives `n`. -/
theorem scanDigits_decimalText (n : Nat) : scanDigits 10 0 (decimalText n) = some n := by
  unfold decimalText
  by_cases h0 : n = 0
  · subst h0; decide
  · rw [if_neg h0, scanDigits_map _ (fun d hd => by
      have := Nat.digits_lt_base (b := 10) (m := n) (by norm_num) (List.mem_reverse.mp hd)
      exact this), foldl_reverse_digits, Nat.ofDigits_digits]

theorem decimalText_allDigits (n : Nat) : allDigits (decimalText n) := by
  unfold decimalText allDigits
  by_cases h0 : n = 0
  · rw [if_pos h0]
    intro c hc
    rw [List.mem_singleton] at hc
    subst hc
    decide
  · rw [if_neg h0]
    intro c hc
    simp only [List.mem_map, List.mem_reverse] at hc
    obtain ⟨d, hd, rfl⟩ := hc
    have hlt : d < 10 := Nat.digits_lt_base (b := 10) (m := n) (by norm_num) hd
    simp only [Fin.ofNat, Fin.val_mk]
    omega

theorem decimalText_ne_nil (n : Nat) : decimalText n ≠ [] := by
  unfold decimalText
  by_cases h0 : n = 0
  · subst h0; decide
  · rw [if_neg h0]
    simp [Nat.digits_ne_nil_iff_ne_zero, h0]

/-- Go `ParseBig256` on a non-empty string of decimal digits: the scanned number when it
is below `2^256`, else a failure. -/
theorem math_ParseBig256_digits (text : Bytes) (n : Nat) (hne : text ≠ [])
    (hd : allDigits text) (hscan : scanDigits 10 0 text = some n) :
    math_ParseBig256 text = if n < 2 ^ 256 then some (n : Int) else none := by
  match text, hne with
  | [c0], _ =>
    have h0 := hd c0 (List.mem_cons_self _ _)
    have e45 : c0 ≠ 45 := by intro h; subst h; exact absurd h0 (by decide)
    have e43 : c0 ≠ 43 := by intro h; subst h; exact absurd h0 (by decide)
    simp [math_ParseBig256, big_Int_SetString, e45, e43, hscan]
  | c0 :: c1 :: rest, _ =>
    have h0 := hd c0 (List.mem_cons_self _ _)
    have h1 := hd c1 (List.mem_cons_of_mem _ (List.mem_cons_self _ _))
    have e45 : c0 ≠ 45 := by intro h; subst h; exact absurd h0 (by decide)
    have e43 : c0 ≠ 43 := by intro h; subst h; exact absurd h0 (by decide)
    have e120 : c1 ≠ 120 := by intro h; subst h; exact absurd h1 (by decide)
    have e88 : c1 ≠ 88 := by intro h; subst h; exact absurd h1 (by decide)
    simp [math_ParseBig256, big_Int_SetString, e45, e43, e120, e88, hscan]

/-- Decoding the text of a set amount below `2^256`. -/
theorem decodeAmount_String (old : Option Int) (a : Int) (h0 : 0 ≤ a) (h1 : a < 2 ^ 256) :
    decodeAmount old (big_Int_String (some a)) = some a := by
  obtain ⟨n, rfl⟩ := Int.eq_ofNat_of_zero_le h0
  have hn : n < 2 ^ 256 := by exact_mod_cast h1
  have hneg : ¬ ((n : Int) < 0) := by omega
  simp only [big_Int_String, if_neg hneg, Int.natAbs_ofNat, natDecimal_eq_decimalText]
  unfold decodeAmount
  rw [if_pos (decimalText_ne_nil n),
    math_ParseBig256_digits _ n (decimalText_ne_nil n) (decimalText_allDigits n)
      (scanDigits_decimalText n), if_pos hn]

/-! ## The JSON object of a `SignedOrderJSON` -/

theorem lookupField_tag (f : Field) : lookupField f.tag = some f := by
  cases f <;> decide

/-- Decoding the object `json.Marshal` produces gives the struct back, provided the
chain id is an `int64`. -/
theorem json_Unmarshal_Marshal (v : SignedOrderJSON)
    (h0 : -(2 : Int) ^ 63 ≤ v.ChainID) (h1 : v.ChainID < 2 ^ 63) :
    json_Unmarshal (json_Marshal v) = Except.ok v := by
  have k1 := lookupField_tag Field.ChainID
  have k2 := lookupField_tag Field.ExchangeAddress
  have k3 := lookupField_tag Field.MakerAddress
  have k4 := lookupField_tag Field.MakerAssetData
  have k5 := lookupField_tag Field.MakerFeeAssetData
  have k6 := lookupField_tag Field.MakerAssetAmount
  have k7 := lookupField_tag Field.MakerFee
  have k8 := lookupField_tag Field.TakerAddress
  have k9 := lookupField_tag Field.TakerAssetData
  have k10 := lookupField_tag Field.TakerFeeAssetData
  have k11 := lookupField_tag Field.TakerAssetAmount
  have k12 := lookupField_tag Field.TakerFee
  have k13 := lookupField_tag Field.SenderAddress
  have k14 := lookupField_tag Field.FeeRecipientAddress
  have k15 := lookupField_tag Field.ExpirationTimeSeconds
  have k16 := lookupField_tag Field.Salt
  have k17 := lookupField_tag Field.Signature
  simp only [Field.tag] at k1 k2 k3 k4 k5 k6 k7 k8 k9 k10 k11 k12 k13 k14 k15 k16 k17
  have hr : -(2 : Int) ^ 63 ≤ v.ChainID ∧ v.ChainID < 2 ^ 63 := ⟨h0, h1⟩
  simp only [json_Unmarshal, json_Marshal, unmarshalMembers, k1, k2, k3, k4, k5, k6, k7, k8, k9,
    k10, k11, k12, k13, k14, k15, k16, k17, decodeMember, SignedOrderJSON.setString,
    SignedOrderJSON.zero, if_pos hr, if_true, if_false, reduceCtorEq]

/-! ## C1: JSON round trip -/

theorem setBelow_some {x : Option Int} {bound : Int} (h : setBelow x bound) :
    ∃ a, x = some a ∧ (0 ≤ a ∧ a < bound) := by
  cases x with
  | none => exact absurd h (by simp [setBelow])
  | some a => exact ⟨a, rfl, h⟩

set_option maxRecDepth 100000 in
/-- C1, as stated, fails.  With chain id `2^63` the encoder narrows the chain id to
`int64` and the decoded order has chain id `-2^63`; with maker asset amount `2^256`
the decoder rejects the text (more than 256 bits) and leaves the amount nil.  Both
orders have all integer fields set to non-negative values. -/
theorem C1_counterexample :
    (wideChainOrder.ChainID = some (2 ^ 63)
      ∧ (roundTrip exampleEnv wideChainOrder).map (fun r => (r.1, r.2.ChainID))
          = some (none, some (-(2 : Int) ^ 63))
      ∧ roundTrip exampleEnv wideChainOrder ≠ some (none, { wideChainOrder with hash := none }))
    ∧ (wideAmountOrder.MakerAssetAmount = some (2 ^ 256)
      ∧ (roundTrip exampleEnv wideAmountOrder).map (fun r => (r.1, r.2.MakerAssetAmount))
          = some (none, none)
      ∧ roundTrip exampleEnv wideAmountOrder ≠ some (none, { wideAmountOrder with hash := none })) := by
  decide

/-- C1 (amended): for every signed order whose chain id is set and in `[0, 2^63)` and
whose six amounts are set and in `[0, 2^256)`, `MarshalJSON` returns without error
and `UnmarshalJSON` of its output into a zero-valued `SignedOrder` returns no error
and yields the same chain id, addresses, byte fields, amounts and signature (and no
cached hash). -/
theorem C1_json_round_trip (env : Env) (s : SignedOrder)
    (hChainID : setBelow s.ChainID (2 ^ 63))
    (hMakerAssetAmount : setBelow s.MakerAssetAmount (2 ^ 256))
    (hMakerFee : setBelow s.MakerFee (2 ^ 256))
    (hTakerAssetAmount : setBelow s.TakerAssetAmount (2 ^ 256))
    (hTakerFee : setBelow s.TakerFee (2 ^ 256))
    (hExpirationTimeSeconds : setBelow s.ExpirationTimeSeconds (2 ^ 256))
    (hSalt : setBelow s.Salt (2 ^ 256)) :
    (∃ data, s.MarshalJSON env = some (data, none))
      ∧ roundTrip env s = some (none, { s with hash := none }) := by
  obtain ⟨⟨ChainID, ExchangeAddress, MakerAddress, MakerAssetData, MakerFeeAssetData,
    MakerAssetAmount, MakerFee, TakerAddress, TakerAssetData, TakerFeeAssetData,
    TakerAssetAmount, TakerFee, SenderAddress, FeeRecipientAddress, ExpirationTimeSeconds,
    Salt, hash⟩, Signature⟩ := s
  dsimp only at hChainID hMakerAssetAmount hMakerFee hTakerAssetAmount
  dsimp only at hTakerFee hExpirationTimeSeconds hSalt
  obtain ⟨c, rfl, rc⟩ := setBelow_some hChainID
  obtain ⟨a1, rfl, r1⟩ := setBelow_some hMakerAssetAmount
  obtain ⟨a2, rfl, r2⟩ := setBelow_some hMakerFee
  obtain ⟨a3, rfl, r3⟩ := setBelow_some hTakerAssetAmount
  obtain ⟨a4, rfl, r4⟩ := setBelow_some hTakerFee
  obtain ⟨a5, rfl, r5⟩ := setBelow_some hExpirationTimeSeconds
  obtain ⟨a6, rfl, r6⟩ := setBelow_some hSalt
  have hw : wrapInt64 c = c := wrapInt64_of_range c (by omega) rc.2
  constructor
  · simp only [SignedOrder.MarshalJSON, big_Int_Int64_eq_wrap]
    exact ⟨_, rfl⟩
  · simp only [roundTrip, SignedOrder.MarshalJSON, big_Int_Int64_eq_wrap, hw,
      SignedOrder.UnmarshalJSON]
    rw [json_Unmarshal_Marshal _ (by simp only [SignedOrder.toJSON]; omega)
      (by simp only [SignedOrder.toJSON]; exact rc.2)]
    simp only [SignedOrder.toJSON, common_HexToAddress_ToLower_Hex, common_FromHex_hexField,
      decodeAmount_String _ _ r1.1 r1.2, decodeAmount_String _ _ r2.1 r2.2,
      decodeAmount_String _ _ r3.1 r3.2, decodeAmount_String _ _ r4.1 r4.2,
      decodeAmount_String _ _ r5.1 r5.2, decodeAmount_String _ _ r6.1 r6.2, big_NewInt,
      SignedOrder.zero, Order.zero]

set_option maxRecDepth 100000 in
/-- C1 (amended) at the example signed order. -/
theorem C1_json_round_trip_witness :
    (∃ data, exampleSignedOrder.MarshalJSON exampleEnv = some (data, none))
      ∧ roundTrip exampleEnv exampleSignedOrder
          = some (none, { exampleSignedOrder with hash := none }) :=
  C1_json_round_trip exampleEnv exampleSignedOrder (by decide) (by decide) (by decide)
    (by decide) (by decide) (by decide) (by decide)

/-! ## C2: Trim inverse -/

/-- C2: for every signed order `s`, `FromTrimmedOrder(s.Trim())` has the value of `s` in
each of the 14 fields other than `ChainID` and `ExchangeAddress`: the four addresses,
the four asset-data fields, the two amounts, the two fees, the expiration time and
the salt. -/
theorem C2_trim_inverse (s : SignedOrder) :
    (FromTrimmedOrder s.Trim).MakerAddress = s.MakerAddress
    ∧ (FromTrimmedOrder s.Trim).TakerAddress = s.TakerAddress
    ∧ (FromTrimmedOrder s.Trim).SenderAddress = s.SenderAddress
    ∧ (FromTrimmedOrder s.Trim).FeeRecipientAddress = s.FeeRecipientAddress
    ∧ (FromTrimmedOrder s.Trim).MakerAssetData = s.MakerAssetData
    ∧ (FromTrimmedOrder s.Trim).TakerAssetData = s.TakerAssetData
    ∧ (FromTrimmedOrder s.Trim).MakerFeeAssetData = s.MakerFeeAssetData
    ∧ (FromTrimmedOrder s.Trim).TakerFeeAssetData = s.TakerFeeAssetData
    ∧ (FromTrimmedOrder s.Trim).MakerAssetAmount = s.MakerAssetAmount
    ∧ (FromTrimmedOrder s.Trim).TakerAssetAmount = s.TakerAssetAmount
    ∧ (FromTrimmedOrder s.Trim).MakerFee = s.MakerFee
    ∧ (FromTrimmedOrder s.Trim).TakerFee = s.TakerFee
    ∧ (FromTrimmedOrder s.Trim).ExpirationTimeSeconds = s.ExpirationTimeSeconds
    ∧ (FromTrimmedOrder s.Trim).Salt = s.Salt :=
  ⟨rfl, rfl, rfl, rfl, rfl, rfl, rfl, rfl, rfl, rfl, rfl, rfl, rfl, rfl⟩

/-! ## Facts about `ComputeOrderHash` -/

/-- The order after `ComputeOrderHash` is the order before, or the order before with
the returned hash stored. -/
theorem ComputeOrderHash_after (env : Env) (o o1 : Order) (r : Hash × Option Error)
    (h : o.ComputeOrderHash env = some (r, o1)) :
    o1 = o ∨ (r.2 = none ∧ o.hash = none ∧ o1 = { o with hash := some r.1 }) := by
  unfold Order.ComputeOrderHash at h
  split at h
  · simp only [Option.some.injEq, Prod.mk.injEq] at h
    exact Or.inl h.2.symm
  · rename_i hnone
    split at h
    · exact absurd h (by simp)
    · dsimp only at h
      split at h
      · simp only [Option.some.injEq, Prod.mk.injEq] at h
        exact Or.inl h.2.symm
      · split at h
        · simp only [Option.some.injEq, Prod.mk.injEq] at h
          exact Or.inl h.2.symm
        · simp only [Option.some.injEq, Prod.mk.injEq] at h
          obtain ⟨hr, ho⟩ := h
          subst hr
          exact Or.inr ⟨rfl, hnone, ho.symm⟩

/-- After a successful `ComputeOrderHash` the returned hash is the cached hash. -/
theorem ComputeOrderHash_memo (env : Env) (o o1 : Order) (h : Hash)
    (hc : o.ComputeOrderHash env = some ((h, none), o1)) : o1.hash = some h := by
  unfold Order.ComputeOrderHash at hc
  split at hc
  · rename_i h0 hsome
    simp only [Option.some.injEq, Prod.mk.injEq] at hc
    obtain ⟨⟨rfl, _⟩, rfl⟩ := hc
    exact hsome
  · split at hc
    · exact absurd hc (by simp)
    · dsimp only at hc
      split at hc
      · simp at hc
      · split at hc
        · simp at hc
        · simp only [Option.some.injEq, Prod.mk.injEq] at hc
          obtain ⟨⟨rfl, _⟩, rfl⟩ := hc
          rfl

theorem ComputeOrderHash_MakerAddress (env : Env) (o o1 : Order) (r : Hash × Option Error)
    (h : o.ComputeOrderHash env = some (r, o1)) : o1.MakerAddress = o.MakerAddress := by
  rcases ComputeOrderHash_after env o o1 r h with rfl | ⟨_, _, rfl⟩ <;> rfl

/-! ## C3, C4: signing -/

theorem copySlice_middle (pre mid post src : Bytes) (h : mid.length = src.length) :
    copySlice (pre ++ (mid ++ post)) pre.length (pre.length + mid.length) src
      = pre ++ (src ++ post) := by
  simp only [copySlice]
  have hn : min (pre.length + mid.length - pre.length) src.length = src.length := by omega
  rw [hn, List.take_left, List.take_of_length_le (le_refl _), List.append_assoc]
  congr 2
  rw [← List.append_assoc, ← h]
  have : pre.length + mid.length = (pre ++ mid).length := by simp
  rw [this, List.drop_left]

/-- The 66 bytes `SignOrder` assembles from a signature with 32-byte halves. -/
theorem signature_layout (V tag : Byte) (R S : Bytes) (hR : R.length = 32) (hS : S.length = 32) :
    (copySlice (copySlice ((List.replicate 66 (0 : Byte)).set 0 V) 1 33 R) 33 65 S).set 65 tag
      = V :: (R ++ (S ++ [tag])) := by
  have e1 : (List.replicate 66 (0 : Byte)).set 0 V
      = [V] ++ (List.replicate 32 0 ++ List.replicate 33 0) := by rfl
  have s1 := copySlice_middle [V] (List.replicate 32 0) (List.replicate 33 0) R (by simp [hR])
  simp only [List.length_singleton, List.length_replicate] at s1
  rw [e1, s1]
  have e2 : [V] ++ (R ++ List.replicate 33 (0 : Byte))
      = (V :: R) ++ (List.replicate 32 0 ++ [0]) := by
    simp only [List.singleton_append, List.cons_append, List.cons.injEq, true_and,
      List.append_cancel_left_eq]
    rfl
  have s2 := copySlice_middle (V :: R) (List.replicate 32 0) [0] S (by simp [hS])
  simp only [List.length_cons, hR, List.length_replicate] at s2
  rw [e2, s2]
  have hlen : (V :: R ++ S).length = 65 := by simp [hR, hS]
  have e3 : V :: R ++ (S ++ [0]) = (V :: R ++ S) ++ [0] := by simp
  rw [e3, List.set_append_right _ _ (by omega), hlen]
  simp

/-- C3: for every non-nil order whose hash computes to `orderHash` and every signer
that answers the request with `(V, R, S)` where `R` and `S` are 32 bytes each,
`SignOrder` returns a signed order and no error, and its signature is exactly 66
bytes, `[V] ++ R ++ S ++ [EthSignSignature]`: byte 0 is `V`, bytes 1..32 are `R`,
bytes 33..64 are `S`, byte 65 is the scheme tag. -/
theorem C3_signature_layout {σ : Type} (env : Env) (signer : Signer σ) (st st1 : σ)
    (o o1 : Order) (orderHash : Hash) (ecSignature : ECSignature)
    (hhash : o.ComputeOrderHash env = some ((orderHash, none), o1))
    (hsign : signer.EthSign st orderHash.val o.MakerAddress = (Except.ok ecSignature, st1))
    (hR : ecSignature.R.length = 32) (hS : ecSignature.S.length = 32) :
    ∃ out signedOrder,
      SignOrder env signer st (some o) = some out
      ∧ out.err = none
      ∧ out.signedOrder = some signedOrder
      ∧ signedOrder.Signature
          = [ecSignature.V] ++ ecSignature.R ++ ecSignature.S ++ [env.EthSignSignature]
      ∧ signedOrder.Signature.length = 66
      ∧ signedOrder.Signature[0]? = some ecSignature.V
      ∧ (signedOrder.Signature.drop 1).take 32 = ecSignature.R
      ∧ (signedOrder.Signature.drop 33).take 32 = ecSignature.S
      ∧ signedOrder.Signature[65]? = some env.EthSignSignature := by
  have hm := ComputeOrderHash_MakerAddress env o o1 _ hhash
  rw [← hm] at hsign
  have hsig := signature_layout ecSignature.V env.EthSignSignature ecSignature.R ecSignature.S hR hS
  refine ⟨_, _, by simp only [SignOrder, hhash, hsign]; rfl, rfl, rfl, ?_, ?_, ?_, ?_, ?_, ?_⟩
  · simp only [hsig]; simp
  · simp only [hsig]; simp [hR, hS]
  · simp only [hsig]; simp
  · simp only [hsig]
    simp only [List.drop_succ_cons, List.drop_zero]
    rw [← hR, List.take_left]
  · simp only [hsig]
    have e : ecSignature.V :: (ecSignature.R ++ (ecSignature.S ++ [env.EthSignSignature]))
        = (ecSignature.V :: ecSignature.R) ++ (ecSignature.S ++ [env.EthSignSignature]) := rfl
    have hl : (ecSignature.V :: ecSignature.R).length = 33 := by simp [hR]
    rw [e, ← hl, List.drop_left, ← hS, List.take_left]
  · simp only [hsig]
    have e : ecSignature.V :: (ecSignature.R ++ (ecSignature.S ++ [env.EthSignSignature]))
        = (ecSignature.V :: ecSignature.R ++ ecSignature.S) ++ [env.EthSignSignature] := by simp
    have hl : (ecSignature.V :: ecSignature.R ++ ecSignature.S).length = 65 := by simp [hR, hS]
    rw [e, List.getElem?_append_right (by omega), hl]
    rfl

/-- C4: for every signer, `SignOrder(signer, nil)` returns the error
`cannot sign nil order` and no signed order, makes no `EthSign` request and leaves the
signer as it was. -/
theorem C4_nil_order {σ : Type} (env : Env) (signer : Signer σ) (st : σ) :
    ∃ out, SignOrder env signer st none = some out
      ∧ out.signedOrder = none
      ∧ out.err = some "cannot sign nil order"
      ∧ out.calls = []
      ∧ out.signer = st :=
  ⟨_, rfl, rfl, rfl, rfl, rfl⟩

set_option maxRecDepth 100000 in
/-- C3 at the example order and the example signer. -/
theorem C3_signature_layout_witness :
    exampleOrder.ComputeOrderHash exampleEnv = some ((exampleOrderHash, none), exampleHashedOrder)
    ∧ exampleSigner.EthSign 0 exampleOrderHash.val exampleOrder.MakerAddress
        = (Except.ok exampleSignature, 1)
    ∧ exampleSignature.R.length = 32
    ∧ exampleSignature.S.length = 32
    ∧ ∃ out signedOrder,
      SignOrder exampleEnv exampleSigner 0 (some exampleOrder) = some out
      ∧ out.err = none
      ∧ out.signedOrder = some signedOrder
      ∧ signedOrder.Signature
          = [exampleSignature.V] ++ exampleSignature.R ++ exampleSignature.S
              ++ [exampleEnv.EthSignSignature]
      ∧ signedOrder.Signature.length = 66
      ∧ signedOrder.Signature[0]? = some exampleSignature.V
      ∧ (signedOrder.Signature.drop 1).take 32 = exampleSignature.R
      ∧ (signedOrder.Signature.drop 33).take 32 = exampleSignature.S
      ∧ signedOrder.Signature[65]? = some exampleEnv.EthSignSignature :=
  ⟨by decide, rfl, by decide, by decide,
    C3_signature_layout exampleEnv exampleSigner 0 1 exampleOrder exampleHashedOrder
      exampleOrderHash exampleSignature (by decide) rfl (by decide) (by decide)⟩

/-! ## C5: the digest -/

/-- The text `String` gives a set integer is its base-10 representation. -/
theorem big_Int_String_some (z : Int) : big_Int_String (some z) = intDecimalText z := by
  simp only [big_Int_String, intDecimalText, natDecimal_eq_decimalText]

/-- C5: for every order with no cached hash and all integer fields set, if the struct
hash of the domain (name `0x Protocol`, version `3.0.0`, the chain id narrowed to 64
bits, the exchange address as hex string) is `domainSeparator` and the struct hash of
the message (the four addresses as hex strings, the four asset-data fields as raw
bytes, the six amounts as base-10 strings) is `typedDataHash`, then `ComputeOrderHash`
returns, with no error, the 32-byte value
`Keccak256(0x19 0x01 || domainSeparator || typedDataHash)` and caches it. -/
theorem C5_digest_definition (env : Env) (o : Order)
    (chainID salt makerFee takerFee makerAssetAmount takerAssetAmount expirationTimeSeconds : Int)
    (domainSeparator typedDataHash : Bytes)
    (hmemo : o.hash = none)
    (hChainID : o.ChainID = some chainID)
    (hSalt : o.Salt = some salt)
    (hMakerFee : o.MakerFee = some makerFee)
    (hTakerFee : o.TakerFee = some takerFee)
    (hMakerAssetAmount : o.MakerAssetAmount = some makerAssetAmount)
    (hTakerAssetAmount : o.TakerAssetAmount = some takerAssetAmount)
    (hExpirationTimeSeconds : o.ExpirationTimeSeconds = some expirationTimeSeconds)
    (hdomain : env.HashStruct (ascii "EIP712Domain")
        [ (ascii "chainId", TypedValue.int (wrapInt64 chainID)),
          (ascii "name", TypedValue.str (ascii "0x Protocol")),
          (ascii "version", TypedValue.str (ascii "3.0.0")),
          (ascii "verifyingContract", TypedValue.str (o.ExchangeAddress.Hex env)) ]
        = Except.ok domainSeparator)
    (hmessage : env.HashStruct (ascii "Order")
        [ (ascii "makerAddress", TypedValue.str (o.MakerAddress.Hex env)),
          (ascii "takerAddress", TypedValue.str (o.TakerAddress.Hex env)),
          (ascii "senderAddress", TypedValue.str (o.SenderAddress.Hex env)),
          (ascii "feeRecipientAddress", TypedValue.str (o.FeeRecipientAddress.Hex env)),
          (ascii "makerAssetData", TypedValue.bytes o.MakerAssetData),
          (ascii "makerFeeAssetData", TypedValue.bytes o.MakerFeeAssetData),
          (ascii "takerAssetData", TypedValue.bytes o.TakerAssetData),
          (ascii "takerFeeAssetData", TypedValue.bytes o.TakerFeeAssetData),
          (ascii "salt", TypedValue.str (intDecimalText salt)),
          (ascii "makerFee", TypedValue.str (intDecimalText makerFee)),
          (ascii "takerFee", TypedValue.str (intDecimalText takerFee)),
          (ascii "makerAssetAmount", TypedValue.str (intDecimalText makerAssetAmount)),
          (ascii "takerAssetAmount", TypedValue.str (intDecimalText takerAssetAmount)),
          (ascii "expirationTimeSeconds", TypedValue.str (intDecimalText expirationTimeSeconds)) ]
        = Except.ok typedDataHash) :
    ∃ digest : Hash,
      digest.val = env.Keccak256 ([0x19, 0x01] ++ domainSeparator ++ typedDataHash)
      ∧ digest.val.length = 32
      ∧ o.ComputeOrderHash env = some ((digest, none), { o with hash := some digest }) := by
  have hmap : (orderDomain env o (wrapInt64 chainID)).Map
      = [ (ascii "chainId", TypedValue.int (wrapInt64 chainID)),
          (ascii "name", TypedValue.str (ascii "0x Protocol")),
          (ascii "version", TypedValue.str (ascii "3.0.0")),
          (ascii "verifyingContract", TypedValue.str (o.ExchangeAddress.Hex env)) ] := by
    have h1 : (ascii "0x Protocol").length > 0 := by decide
    have h2 : (ascii "3.0.0").length > 0 := by decide
    have h3 : (o.ExchangeAddress.Hex env).length > 0 := by simp [Address.Hex]
    simp only [TypedDataDomain.Map, orderDomain, math_NewHexOrDecimal256, if_pos h1, if_pos h2,
      if_pos h3, List.length_nil, gt_iff_lt, lt_self_iff_false, if_false, List.append_nil,
      List.singleton_append, List.cons_append, List.nil_append]
  refine ⟨common_BytesToHash (env.Keccak256 ([0x19, 0x01] ++ domainSeparator ++ typedDataHash)),
    ?_, ?_, ?_⟩
  · exact setBytes_of_length 32 _ (env.Keccak256_length _)
  · exact (common_BytesToHash _).property
  · simp only [Order.ComputeOrderHash, hmemo, hChainID, big_Int_Int64_eq_wrap, hmap, hdomain,
      orderMessage, hSalt, hMakerFee, hTakerFee, hMakerAssetAmount, hTakerAssetAmount,
      hExpirationTimeSeconds, big_Int_String_some, hmessage]

/-- C5 at the example order: chain id 1, salt 42, amounts 1000 and 2000, fees and
expiration 0. -/
theorem C5_digest_definition_witness :
    exampleOrder.hash = none
    ∧ exampleOrder.ChainID = some 1
    ∧ exampleOrder.Salt = some 42
    ∧ exampleEnv.HashStruct (ascii "EIP712Domain") exampleDomainMap
        = Except.ok (exampleHashBytes (ascii "EIP712Domain") exampleDomainMap)
    ∧ exampleEnv.HashStruct (ascii "Order") exampleMessageMap
        = Except.ok (exampleHashBytes (ascii "Order") exampleMessageMap)
    ∧ ∃ digest : Hash,
      digest.val = exampleEnv.Keccak256 ([0x19, 0x01]
          ++ exampleHashBytes (ascii "EIP712Domain") exampleDomainMap
          ++ exampleHashBytes (ascii "Order") exampleMessageMap)
      ∧ digest.val.length = 32
      ∧ exampleOrder.ComputeOrderHash exampleEnv
          = some ((digest, none), { exampleOrder with hash := some digest }) :=
  ⟨rfl, rfl, rfl, rfl, rfl,
    C5_digest_definition exampleEnv exampleOrder 1 42 0 0 1000 2000 0
      (exampleHashBytes (ascii "EIP712Domain") exampleDomainMap)
      (exampleHashBytes (ascii "Order") exampleMessageMap)
      rfl rfl rfl rfl rfl rfl rfl rfl rfl rfl⟩

/-! ## C6, C7, C8: the cached hash -/

set_option maxRecDepth 100000 in
/-- C6, as stated, fails.  The example order is hashed and then its salt is assigned 43
without `ResetHash`; that state is reachable and has the field values of a new order
with salt 43, but `ComputeOrderHash` returns the cached hash of the old fields on it
and the hash of the new fields on the new order. -/
theorem C6_counterexample :
    Reachable exampleEnv staleOrder
    ∧ Reachable exampleEnv resaltedOrder
    ∧ sameFields staleOrder resaltedOrder
    ∧ staleOrder.hashResult exampleEnv = exampleOrder.hashResult exampleEnv
    ∧ staleOrder.hashResult exampleEnv ≠ resaltedOrder.hashResult exampleEnv := by
  refine ⟨?_, ?_, by decide, by decide, by decide⟩
  · exact Reachable.assign exampleHashedOrder resaltedOrder
      (Reachable.computeOrderHash exampleOrder exampleHashedOrder (exampleOrderHash, none)
        (Reachable.fresh exampleOrder rfl) (by decide))
  · exact Reachable.fresh resaltedOrder rfl

/-- The cached hash, when present, is what a recomputation from the fields returns. -/
theorem ReachableWithReset_memo (env : Env) (o : Order) (hr : ReachableWithReset env o) :
    ∀ h, o.hash = some h → o.ResetHash.hashResult env = some (h, none) := by
  induction hr with
  | fresh o hnone => intro h hh; rw [hnone] at hh; exact absurd hh (by simp)
  | assignReset o fields _ _ => intro h hh; exact absurd hh (by simp [Order.ResetHash])
  | resetHash o _ _ => intro h hh; exact absurd hh (by simp [Order.ResetHash])
  | computeOrderHash o o1 r _ hc ih =>
    intro h hh
    rcases ComputeOrderHash_after env o o1 r hc with rfl | ⟨hr2, hnone, rfl⟩
    · exact ih h hh
    · simp only [Option.some.injEq] at hh
      have ho : Order.ResetHash { o with hash := some r.1 } = o := by
        cases o
        simp only [Order.ResetHash] at hnone ⊢
        simp only [hnone]
      rw [ho]
      unfold Order.hashResult
      rw [hc, ← hh, ← hr2]

/-- With a cached hash that matches the fields, `ComputeOrderHash` returns what it
returns after `ResetHash`. -/
theorem hashResult_eq_reset (env : Env) (o : Order) (hr : ReachableWithReset env o) :
    o.hashResult env = o.ResetHash.hashResult env := by
  cases hh : o.hash with
  | none =>
    have : o.ResetHash = o := by
      cases o
      simp only [Order.ResetHash] at hh ⊢
      simp only [hh]
    rw [this]
  | some h =>
    rw [ReachableWithReset_memo env o hr h hh]
    simp only [Order.hashResult, Order.ComputeOrderHash, hh]

/-- C6 (amended): for any two orders, each in a state reachable from a new order by
field assignment followed by `ResetHash`, by `ResetHash` and by `ComputeOrderHash`, whose
16 field values are identical (the cached hash aside), `ComputeOrderHash` returns the
identical hash and error on both. -/
theorem C6_identical_fields_identical_digest (env : Env) (o1 o2 : Order)
    (h1 : ReachableWithReset env o1) (h2 : ReachableWithReset env o2)
    (hsame : sameFields o1 o2) :
    o1.hashResult env = o2.hashResult env := by
  rw [hashResult_eq_reset env o1 h1, hashResult_eq_reset env o2 h2]
  unfold sameFields at hsame
  rw [hsame]

set_option maxRecDepth 100000 in
/-- C6 (amended) at the example order, hashed, and the example order, new. -/
theorem C6_identical_fields_identical_digest_witness :
    ReachableWithReset exampleEnv exampleHashedOrder
    ∧ ReachableWithReset exampleEnv exampleOrder
    ∧ sameFields exampleHashedOrder exampleOrder
    ∧ exampleHashedOrder.hashResult exampleEnv = exampleOrder.hashResult exampleEnv :=
  ⟨ReachableWithReset.computeOrderHash exampleOrder exampleHashedOrder (exampleOrderHash, none)
      (ReachableWithReset.fresh exampleOrder rfl) (by decide),
    ReachableWithReset.fresh exampleOrder rfl, by decide,
    C6_identical_fields_identical_digest exampleEnv exampleHashedOrder exampleOrder
      (ReachableWithReset.computeOrderHash exampleOrder exampleHashedOrder (exampleOrderHash, none)
        (ReachableWithReset.fresh exampleOrder rfl) (by decide))
      (ReachableWithReset.fresh exampleOrder rfl) (by decide)⟩

/-- C7: let `ComputeOrderHash` have succeeded on an order with hash `h`, leaving `o1`, and
let fields of `o1` then be assigned in place (`o1.assign fields`).  (1) Without
`ResetHash`, `ComputeOrderHash` returns the stale `h`, with no error, and changes
nothing.  (2) After `ResetHash`, `ComputeOrderHash` does what it does on a newly built
order with the same field values and no cached hash. -/
theorem C7_memo_invalidation (env : Env) (o o1 fields : Order) (h : Hash)
    (hc : o.ComputeOrderHash env = some ((h, none), o1)) :
    (o1.assign fields).ComputeOrderHash env = some ((h, none), o1.assign fields)
    ∧ (o1.assign fields).ResetHash.ComputeOrderHash env
        = Order.ComputeOrderHash env { fields with hash := none } := by
  have hm := ComputeOrderHash_memo env o o1 h hc
  constructor
  · simp only [Order.ComputeOrderHash, Order.assign, hm]
  · rfl

set_option maxRecDepth 100000 in
/-- C7 at the example order, with the salt changed from 42 to 43 after hashing. -/
theorem C7_memo_invalidation_witness :
    exampleOrder.ComputeOrderHash exampleEnv = some ((exampleOrderHash, none), exampleHashedOrder)
    ∧ (exampleHashedOrder.assign resaltedOrder).ComputeOrderHash exampleEnv
        = some ((exampleOrderHash, none), exampleHashedOrder.assign resaltedOrder)
    ∧ (exampleHashedOrder.assign resaltedOrder).ResetHash.ComputeOrderHash exampleEnv
        = Order.ComputeOrderHash exampleEnv { resaltedOrder with hash := none } :=
  ⟨by decide,
    C7_memo_invalidation exampleEnv exampleOrder exampleHashedOrder resaltedOrder
      exampleOrderHash (by decide)⟩

/-- C8: if `ComputeOrderHash` succeeds on an order with hash `h`, leaving `o1`, a second
call (on `o1`, nothing assigned in between) succeeds with the identical `h`; and on two
orders `p` and `q` with no cached hash and identical field values `ComputeOrderHash`
returns identical results. -/
theorem C8_determinism (env : Env) (o o1 p q : Order) (h : Hash)
    (hc : o.ComputeOrderHash env = some ((h, none), o1))
    (hp : p.hash = none) (hq : q.hash = none) (hsame : sameFields p q) :
    o1.ComputeOrderHash env = some ((h, none), o1)
    ∧ p.ComputeOrderHash env = q.ComputeOrderHash env := by
  have hm := ComputeOrderHash_memo env o o1 h hc
  constructor
  · simp only [Order.ComputeOrderHash, hm]
  · have e : p = q := by
      cases p
      cases q
      simp only [sameFields, Order.ResetHash, Order.mk.injEq] at hsame hp hq ⊢
      simp only [hp, hq, hsame, and_self]
    rw [e]

set_option maxRecDepth 100000 in
/-- C8 at the example order; the two orders with no cached hash are the example order
and the hashed example order after `ResetHash`. -/
theorem C8_determinism_witness :
    exampleOrder.ComputeOrderHash exampleEnv = some ((exampleOrderHash, none), exampleHashedOrder)
    ∧ exampleOrder.hash = none
    ∧ exampleHashedOrder.ResetHash.hash = none
    ∧ sameFields exampleOrder exampleHashedOrder.ResetHash
    ∧ exampleHashedOrder.ComputeOrderHash exampleEnv
        = some ((exampleOrderHash, none), exampleHashedOrder)
    ∧ exampleOrder.ComputeOrderHash exampleEnv
        = exampleHashedOrder.ResetHash.ComputeOrderHash exampleEnv :=
  ⟨by decide, rfl, rfl, by decide,
    C8_determinism exampleEnv exampleOrder exampleHashedOrder exampleOrder
      exampleHashedOrder.ResetHash exampleOrderHash (by decide) rfl rfl (by decide)⟩

/-! ## C9, C10: the wire text of integers and byte fields -/

theorem json_Marshal_lookup (v : SignedOrderJSON) :
    (json_Marshal v).lookup (ascii "chainId") = some (JSONValue.number v.ChainID)
    ∧ (json_Marshal v).lookup (ascii "makerAssetAmount") = some (JSONValue.string v.MakerAssetAmount)
    ∧ (json_Marshal v).lookup (ascii "makerFee") = some (JSONValue.string v.MakerFee)
    ∧ (json_Marshal v).lookup (ascii "takerAssetAmount") = some (JSONValue.string v.TakerAssetAmount)
    ∧ (json_Marshal v).lookup (ascii "takerFee") = some (JSONValue.string v.TakerFee)
    ∧ (json_Marshal v).lookup (ascii "expirationTimeSeconds")
        = some (JSONValue.string v.ExpirationTimeSeconds)
    ∧ (json_Marshal v).lookup (ascii "salt") = some (JSONValue.string v.Salt)
    ∧ (json_Marshal v).lookup (ascii "makerAssetData") = some (JSONValue.string v.MakerAssetData)
    ∧ (json_Marshal v).lookup (ascii "takerAssetData") = some (JSONValue.string v.TakerAssetData)
    ∧ (json_Marshal v).lookup (ascii "makerFeeAssetData")
        = some (JSONValue.string v.MakerFeeAssetData)
    ∧ (json_Marshal v).lookup (ascii "takerFeeAssetData")
        = some (JSONValue.string v.TakerFeeAssetData)
    ∧ (json_Marshal v).lookup (ascii "signature") = some (JSONValue.string v.Signature) :=
  ⟨rfl, rfl, rfl, rfl, rfl, rfl, rfl, rfl, rfl, rfl, rfl, rfl⟩

set_option maxRecDepth 100000 in
/-- C9, as stated, fails for `chainId`.  The example signed order has every integer
field set, and `MarshalJSON` emits its chain id 1 as the JSON number `1`, not as a JSON
string; for chain id `2^64 + 1` it emits the number `1` too, so the value is lost. -/
theorem C9_counterexample :
    (∃ data, exampleSignedOrder.MarshalJSON exampleEnv = some (data, none)
      ∧ data.lookup (ascii "chainId") = some (JSONValue.number 1)
      ∧ ∀ text, data.lookup (ascii "chainId") ≠ some (JSONValue.string text))
    ∧ wrappedChainOrder.ChainID = some (2 ^ 64 + 1)
    ∧ (∃ data, wrappedChainOrder.MarshalJSON exampleEnv = some (data, none)
      ∧ data.lookup (ascii "chainId") = some (JSONValue.number 1)) := by
  refine ⟨⟨_, rfl, by decide, ?_⟩, rfl, ⟨_, rfl, by decide⟩⟩
  intro text h
  have h1 : (some (JSONValue.number 1) : Option JSONValue) = some (JSONValue.string text) := by
    rw [← h]; decide
  simp at h1

/-- C9 (amended): for every signed order with all integer fields set, `MarshalJSON`
returns without error, emits each of `makerAssetAmount`, `makerFee`, `takerAssetAmount`,
`takerFee`, `expirationTimeSeconds` and `salt` as a JSON string holding the base-10
representation of the field, and emits `chainId` as a JSON number: the chain id
narrowed to a signed 64-bit integer. -/
theorem C9_integer_wire_encoding (env : Env) (s : SignedOrder)
    (chainID makerAssetAmount makerFee takerAssetAmount takerFee expirationTimeSeconds salt : Int)
    (hChainID : s.ChainID = some chainID)
    (hMakerAssetAmount : s.MakerAssetAmount = some makerAssetAmount)
    (hMakerFee : s.MakerFee = some makerFee)
    (hTakerAssetAmount : s.TakerAssetAmount = some takerAssetAmount)
    (hTakerFee : s.TakerFee = some takerFee)
    (hExpirationTimeSeconds : s.ExpirationTimeSeconds = some expirationTimeSeconds)
    (hSalt : s.Salt = some salt) :
    ∃ data, s.MarshalJSON env = some (data, none)
      ∧ data.lookup (ascii "chainId") = some (JSONValue.number (wrapInt64 chainID))
      ∧ data.lookup (ascii "makerAssetAmount")
          = some (JSONValue.string (intDecimalText makerAssetAmount))
      ∧ data.lookup (ascii "makerFee") = some (JSONValue.string (intDecimalText makerFee))
      ∧ data.lookup (ascii "takerAssetAmount")
          = some (JSONValue.string (intDecimalText takerAssetAmount))
      ∧ data.lookup (ascii "takerFee") = some (JSONValue.string (intDecimalText takerFee))
      ∧ data.lookup (ascii "expirationTimeSeconds")
          = some (JSONValue.string (intDecimalText expirationTimeSeconds))
      ∧ data.lookup (ascii "salt") = some (JSONValue.string (intDecimalText salt)) := by
  have hl := json_Marshal_lookup (s.toJSON env (wrapInt64 chainID))
  refine ⟨json_Marshal (s.toJSON env (wrapInt64 chainID)), ?_, hl.1, ?_, ?_, ?_, ?_, ?_, ?_⟩
  · simp only [SignedOrder.MarshalJSON, hChainID, big_Int_Int64_eq_wrap]
  · rw [hl.2.1]; simp only [SignedOrder.toJSON, hMakerAssetAmount, big_Int_String_some]
  · rw [hl.2.2.1]; simp only [SignedOrder.toJSON, hMakerFee, big_Int_String_some]
  · rw [hl.2.2.2.1]; simp only [SignedOrder.toJSON, hTakerAssetAmount, big_Int_String_some]
  · rw [hl.2.2.2.2.1]; simp only [SignedOrder.toJSON, hTakerFee, big_Int_String_some]
  · rw [hl.2.2.2.2.2.1]
    simp only [SignedOrder.toJSON, hExpirationTimeSeconds, big_Int_String_some]
  · rw [hl.2.2.2.2.2.2.1]; simp only [SignedOrder.toJSON, hSalt, big_Int_String_some]

/-- C9 (amended) at the example signed order. -/
theorem C9_integer_wire_encoding_witness :
    exampleSignedOrder.ChainID = some 1
    ∧ exampleSignedOrder.MakerAssetAmount = some 1000
    ∧ exampleSignedOrder.Salt = some 42
    ∧ ∃ data, exampleSignedOrder.MarshalJSON exampleEnv = some (data, none)
      ∧ data.lookup (ascii "chainId") = some (JSONValue.number (wrapInt64 1))
      ∧ data.lookup (ascii "makerAssetAmount") = some (JSONValue.string (intDecimalText 1000))
      ∧ data.lookup (ascii "makerFee") = some (JSONValue.string (intDecimalText 0))
      ∧ data.lookup (ascii "takerAssetAmount") = some (JSONValue.string (intDecimalText 2000))
      ∧ data.lookup (ascii "takerFee") = some (JSONValue.string (intDecimalText 0))
      ∧ data.lookup (ascii "expirationTimeSeconds") = some (JSONValue.string (intDecimalText 0))
      ∧ data.lookup (ascii "salt") = some (JSONValue.string (intDecimalText 42)) :=
  ⟨rfl, rfl, rfl,
    C9_integer_wire_encoding exampleEnv exampleSignedOrder 1 1000 0 2000 0 0 42
      rfl rfl rfl rfl rfl rfl rfl⟩

theorem hextable_lowerHexDigit (d : Nat) (hd : d < 16) : hextable.getD d 0 = lowerHexDigit d := by
  interval_cases d <;> decide

theorem hex_EncodeToString_eq (b : Bytes) : hex_EncodeToString b = lowerHexText b := by
  induction b with
  | nil => rfl
  | cons v rest ih =>
    have h1 : v.val / 16 < 16 := by have := v.isLt; omega
    have h2 : v.val % 16 < 16 := by omega
    simp only [hex_EncodeToString, hextable_lowerHexDigit _ h1, hextable_lowerHexDigit _ h2, ih,
      lowerHexText, List.map_cons, List.flatten_cons, List.cons_append, List.nil_append]

theorem hexField_eq (b : Bytes) : hexField b = ascii "0x" ++ lowerHexText b := by
  unfold hexField
  by_cases h : b.length ≠ 0
  · rw [if_pos h, common_Bytes2Hex, hex_EncodeToString_eq]
  · rw [if_neg h]
    have hb : b = [] := List.length_eq_zero.mp (by omega)
    subst hb
    rfl

/-- C10, as stated for every signed order, fails on a nil chain id: the signed order
built with `FromTrimmedOrder` has none, and `MarshalJSON` panics on it (it calls
`s.ChainID.Int64()` before anything is emitted). -/
theorem C10_counterexample :
    untrimmedOrder.ChainID = none ∧ untrimmedOrder.MarshalJSON exampleEnv = none := by
  decide

/-- C10 (amended): for every signed order whose chain id is set, `MarshalJSON` returns
without error an object in which each of `makerAssetData`, `takerAssetData`,
`makerFeeAssetData`, `takerFeeAssetData` and `signature` is present and is the string
`0x` followed by two lowercase hex digits per byte, in order; for an empty (or nil)
byte sequence it is the two-character string `0x`. -/
theorem C10_byte_field_wire_encoding (env : Env) (s : SignedOrder) (chainID : Int)
    (hChainID : s.ChainID = some chainID) :
    ∃ data, s.MarshalJSON env = some (data, none)
      ∧ ∀ entry ∈ [ (ascii "makerAssetData", s.MakerAssetData),
                    (ascii "takerAssetData", s.TakerAssetData),
                    (ascii "makerFeeAssetData", s.MakerFeeAssetData),
                    (ascii "takerFeeAssetData", s.TakerFeeAssetData),
                    (ascii "signature", s.Signature) ],
          data.lookup entry.1 = some (JSONValue.string (ascii "0x" ++ lowerHexText entry.2))
          ∧ (entry.2 = [] → data.lookup entry.1 = some (JSONValue.string (ascii "0x"))) := by
  have hl := json_Marshal_lookup (s.toJSON env (wrapInt64 chainID))
  refine ⟨json_Marshal (s.toJSON env (wrapInt64 chainID)), ?_, ?_⟩
  · simp only [SignedOrder.MarshalJSON, hChainID, big_Int_Int64_eq_wrap]
  · have key : ∀ (k b : Bytes),
        (json_Marshal (s.toJSON env (wrapInt64 chainID))).lookup k
          = some (JSONValue.string (hexField b)) →
        (json_Marshal (s.toJSON env (wrapInt64 chainID))).lookup k
            = some (JSONValue.string (ascii "0x" ++ lowerHexText b))
          ∧ (b = [] → (json_Marshal (s.toJSON env (wrapInt64 chainID))).lookup k
            = some (JSONValue.string (ascii "0x"))) := by
      intro k b hk
      rw [hk, hexField_eq]
      refine ⟨rfl, ?_⟩
      intro hb
      subst hb
      rfl
    intro entry hentry
    simp only [List.mem_cons, List.mem_singleton, List.not_mem_nil, or_false] at hentry
    rcases hentry with rfl | rfl | rfl | rfl | rfl
    · exact key _ _ hl.2.2.2.2.2.2.2.1
    · exact key _ _ hl.2.2.2.2.2.2.2.2.1
    · exact key _ _ hl.2.2.2.2.2.2.2.2.2.1
    · exact key _ _ hl.2.2.2.2.2.2.2.2.2.2.1
    · exact key _ _ hl.2.2.2.2.2.2.2.2.2.2.2

/-- C10 (amended) at the example signed order, whose fee asset data are empty. -/
theorem C10_byte_field_wire_encoding_witness :
    exampleSignedOrder.ChainID = some 1
    ∧ ∃ data, exampleSignedOrder.MarshalJSON exampleEnv = some (data, none)
      ∧ ∀ entry ∈ [ (ascii "makerAssetData", exampleSignedOrder.MakerAssetData),
                    (ascii "takerAssetData", exampleSignedOrder.TakerAssetData),
                    (ascii "makerFeeAssetData", exampleSignedOrder.MakerFeeAssetData),
                    (ascii "takerFeeAssetData", exampleSignedOrder.TakerFeeAssetData),
                    (ascii "signature", exampleSignedOrder.Signature) ],
          data.lookup entry.1 = some (JSONValue.string (ascii "0x" ++ lowerHexText entry.2))
          ∧ (entry.2 = [] → data.lookup entry.1 = some (JSONValue.string (ascii "0x"))) :=
  ⟨rfl, C10_byte_field_wire_encoding exampleEnv exampleSignedOrder 1 rfl⟩

/-! ## C11: the wire text of addresses -/

theorem json_Marshal_lookup_address (v : SignedOrderJSON) (f : AddressField) :
    (json_Marshal v).lookup f.tag = some (JSONValue.string (f.text v)) := by
  cases f <;> rfl

theorem toJSON_address (env : Env) (s : SignedOrder) (chainID : Int) (f : AddressField) :
    f.text (s.toJSON env chainID) = strings_ToLower ((f.value s.toOrder).Hex env) := by
  cases f <;> rfl

theorem lowerHexDigit_not_upper (d : Nat) (hd : d < 16) : ¬ isUpper (lowerHexDigit d) := by
  interval_cases d <;> decide

theorem lowerHexText_not_upper (b : Bytes) : ∀ c ∈ lowerHexText b, ¬ isUpper c := by
  induction b with
  | nil => intro c hc; simp [lowerHexText] at hc
  | cons v rest ih =>
    have h1 : v.val / 16 < 16 := by have := v.isLt; omega
    have h2 : v.val % 16 < 16 := by omega
    intro c hc
    simp only [lowerHexText, List.map_cons, List.flatten_cons, List.cons_append,
      List.nil_append, List.mem_cons] at hc
    rcases hc with rfl | rfl | hc
    · exact lowerHexDigit_not_upper _ h1
    · exact lowerHexDigit_not_upper _ h2
    · exact ih c hc

theorem lowerHexText_length (b : Bytes) : (lowerHexText b).length = 2 * b.length := by
  rw [← hex_EncodeToString_eq, hex_EncodeToString_length]

/-- C11, as stated for every signed order, fails on a nil chain id: the signed order
built with `FromTrimmedOrder` has none, and `MarshalJSON` panics on it, so no address
text is emitted. -/
theorem C11_counterexample :
    untrimmedAddressOrder.ChainID = none
    ∧ untrimmedAddressOrder.MarshalJSON exampleEnv = none := by
  decide

/-- C11 (amended): for every signed order whose chain id is set and each of its five
address fields, `MarshalJSON` returns without error an object in which the field is a
42-character string: `0x` followed by the 40 lowercase hex digits of the 20 address
bytes, with no upper-case character, whatever `Address.Hex` produced; and
`common.HexToAddress` of that string is the original address. -/
theorem C11_address_wire_encoding (env : Env) (s : SignedOrder) (chainID : Int)
    (hChainID : s.ChainID = some chainID) :
    ∃ data, s.MarshalJSON env = some (data, none)
      ∧ ∀ f : AddressField, ∃ text,
          data.lookup f.tag = some (JSONValue.string text)
          ∧ text.length = 42
          ∧ text = ascii "0x" ++ lowerHexText (f.value s.toOrder).val
          ∧ (lowerHexText (f.value s.toOrder).val).length = 40
          ∧ (∀ c ∈ text, ¬ isUpper c)
          ∧ common_HexToAddress text = f.value s.toOrder := by
  refine ⟨json_Marshal (s.toJSON env (wrapInt64 chainID)), ?_, ?_⟩
  · simp only [SignedOrder.MarshalJSON, hChainID, big_Int_Int64_eq_wrap]
  · intro f
    have hlen : (lowerHexText (f.value s.toOrder).val).length = 40 := by
      rw [lowerHexText_length, (f.value s.toOrder).property]
    have htext : strings_ToLower ((f.value s.toOrder).Hex env)
        = ascii "0x" ++ lowerHexText (f.value s.toOrder).val := by
      rw [strings_ToLower_Hex, hex_EncodeToString_eq, ascii_0x]
      rfl
    refine ⟨strings_ToLower ((f.value s.toOrder).Hex env), ?_, ?_, htext, hlen, ?_, ?_⟩
    · rw [json_Marshal_lookup_address, toJSON_address]
    · rw [htext, ascii_0x]
      simp only [List.length_append, List.length_cons, List.length_nil, hlen]
    · rw [htext, ascii_0x]
      intro c hc
      simp only [List.cons_append, List.nil_append, List.mem_cons] at hc
      rcases hc with rfl | rfl | hc
      · decide
      · decide
      · exact lowerHexText_not_upper _ c hc
    · exact common_HexToAddress_ToLower_Hex env _

/-- C11 (amended) at the example signed order. -/
theorem C11_address_wire_encoding_witness :
    exampleSignedOrder.ChainID = some 1
    ∧ ∃ data, exampleSignedOrder.MarshalJSON exampleEnv = some (data, none)
      ∧ ∀ f : AddressField, ∃ text,
          data.lookup f.tag = some (JSONValue.string text)
          ∧ text.length = 42
          ∧ text = ascii "0x" ++ lowerHexText (f.value exampleSignedOrder.toOrder).val
          ∧ (lowerHexText (f.value exampleSignedOrder.toOrder).val).length = 40
          ∧ (∀ c ∈ text, ¬ isUpper c)
          ∧ common_HexToAddress text = f.value exampleSignedOrder.toOrder :=
  ⟨rfl, C11_address_wire_encoding exampleEnv exampleSignedOrder 1 rfl⟩

/-! ## C12: text that is not an integer -/

theorem digitValue_decimal (c : Byte) (d : Nat) (h : digitValue c = some d) (hd : d < 10) :
    isDecimalDigit c = true := by
  unfold digitValue at h
  unfold isDecimalDigit
  split_ifs at h with h1 h2 h3
  · exact decide_eq_true h1
  · simp only [Option.some.injEq] at h; omega
  · simp only [Option.some.injEq] at h; omega

theorem digitValue_hex (c : Byte) (d : Nat) (h : digitValue c = some d) (hd : d < 16) :
    isHexDigit c = true := by
  unfold digitValue at h
  unfold isHexDigit
  split_ifs at h with h1 h2 h3
  · exact decide_eq_true (Or.inl h1)
  · simp only [Option.some.injEq] at h
    exact decide_eq_true (Or.inr (Or.inl ⟨h2.1, by omega⟩))
  · simp only [Option.some.injEq] at h
    exact decide_eq_true (Or.inr (Or.inr ⟨h3.1, by omega⟩))

/-- A string the mantissa loop accepts consists of digits below the base. -/
theorem scanDigits_all (base : Nat) (digit : Byte → Bool)
    (hdigit : ∀ c d, digitValue c = some d → d < base → digit c = true) :
    ∀ (body : Bytes) (acc n : Nat), scanDigits base acc body = some n → body.all digit = true := by
  intro body
  induction body with
  | nil => intro acc n _; rfl
  | cons ch rest ih =>
    intro acc n h
    unfold scanDigits at h
    cases hv : digitValue ch with
    | none => simp [hv] at h
    | some d =>
      simp only [hv] at h
      by_cases hb : d < base
      · rw [if_pos hb] at h
        simp only [List.all_cons, hdigit ch d hv hb, ih _ _ h, Bool.and_self]
      · rw [if_neg hb] at h
        exact absurd h (by simp)

/-- A string `SetString` accepts is an optional sign followed by digits of the base. -/
theorem big_Int_SetString_signedDigits (base : Nat) (digit : Byte → Bool)
    (hdigit : ∀ c d, digitValue c = some d → d < base → digit c = true)
    (text : Bytes) (z : Int) (h : big_Int_SetString text base = some z) :
    isSignedDigits digit text = true := by
  cases text with
  | nil => simp [big_Int_SetString] at h
  | cons ch rest =>
    simp only [big_Int_SetString] at h
    simp only [isSignedDigits]
    generalize (if ch = 45 ∨ ch = 43 then rest else ch :: rest) = body at h ⊢
    cases body with
    | nil => simp at h
    | cons b bs =>
      simp only at h
      cases hs : scanDigits base 0 (b :: bs) with
      | none => simp [hs] at h
      | some n =>
        have := scanDigits_all base digit hdigit (b :: bs) 0 n hs
        simp only [List.isEmpty_cons, Bool.not_false, Bool.true_and, this]

/-- Go `ParseBig256` rejects a non-empty string that is neither a decimal integer nor a
`0x`-prefixed hexadecimal integer. -/
theorem math_ParseBig256_not_integer (text : Bytes) (hne : text ≠ [])
    (hdec : isDecimalInteger text = false) (hhex : isHexInteger text = false) :
    math_ParseBig256 text = none := by
  have dec10 : big_Int_SetString text 10 = none := by
    cases h : big_Int_SetString text 10 with
    | none => rfl
    | some z =>
      have := big_Int_SetString_signedDigits 10 isDecimalDigit digitValue_decimal text z h
      unfold isDecimalInteger at hdec
      rw [this] at hdec
      exact absurd hdec (by simp)
  match text, hne with
  | [c0], _ => simp [math_ParseBig256, dec10]
  | c0 :: c1 :: rest, _ =>
    by_cases hp : c0 = 48 ∧ (c1 = 120 ∨ c1 = 88)
    · have hex16 : big_Int_SetString rest 16 = none := by
        cases h : big_Int_SetString rest 16 with
        | none => rfl
        | some z =>
          have := big_Int_SetString_signedDigits 16 isHexDigit digitValue_hex rest z h
          have hpre : has0xPrefix (c0 :: c1 :: rest) = true := by
            simp only [has0xPrefix, decide_eq_true_eq]; exact hp
          simp only [isHexInteger, hpre, List.drop_succ_cons, List.drop_zero, this,
            Bool.and_self] at hhex
          exact absurd hhex (by simp)
      simp only [math_ParseBig256, if_pos hp, hex16]
    · simp only [math_ParseBig256, if_neg hp, dec10]

/-- When `json.Unmarshal` accepts the wire object, `UnmarshalJSON` returns no error and
the receiver holds the decoded fields (and the cached hash it had). -/
theorem UnmarshalJSON_of_ok (s : SignedOrder) (data : JSONObject) (w : SignedOrderJSON)
    (hw : json_Unmarshal data = Except.ok w) :
    s.UnmarshalJSON data =
      (none,
        { ChainID := big_NewInt w.ChainID
          ExchangeAddress := common_HexToAddress w.ExchangeAddress
          MakerAddress := common_HexToAddress w.MakerAddress
          MakerAssetData := common_FromHex w.MakerAssetData
          MakerFeeAssetData := common_FromHex w.MakerFeeAssetData
          MakerAssetAmount := decodeAmount s.MakerAssetAmount w.MakerAssetAmount
          MakerFee := decodeAmount s.MakerFee w.MakerFee
          TakerAddress := common_HexToAddress w.TakerAddress
          TakerAssetData := common_FromHex w.TakerAssetData
          TakerFeeAssetData := common_FromHex w.TakerFeeAssetData
          TakerAssetAmount := decodeAmount s.TakerAssetAmount w.TakerAssetAmount
          TakerFee := decodeAmount s.TakerFee w.TakerFee
          SenderAddress := common_HexToAddress w.SenderAddress
          FeeRecipientAddress := common_HexToAddress w.FeeRecipientAddress
          ExpirationTimeSeconds := decodeAmount s.ExpirationTimeSeconds w.ExpirationTimeSeconds
          Salt := decodeAmount s.Salt w.Salt
          hash := s.hash
          Signature := common_FromHex w.Signature }) := by
  simp only [SignedOrder.UnmarshalJSON, hw]

theorem UnmarshalJSON_amount (s : SignedOrder) (data : JSONObject) (w : SignedOrderJSON)
    (hw : json_Unmarshal data = Except.ok w) (f : AmountField) :
    f.value (s.UnmarshalJSON data).2.toOrder = decodeAmount (f.value s.toOrder) (f.text w) := by
  rw [UnmarshalJSON_of_ok s data w hw]
  cases f <;> rfl

theorem UnmarshalJSON_address (s : SignedOrder) (data : JSONObject) (w : SignedOrderJSON)
    (hw : json_Unmarshal data = Except.ok w) (f : AddressField) :
    f.value (s.UnmarshalJSON data).2.toOrder = common_HexToAddress (f.text w) := by
  rw [UnmarshalJSON_of_ok s data w hw]
  cases f <;> rfl

/-- The decoded order depends on the text of an amount field only in that field. -/
theorem UnmarshalJSON_setText (s : SignedOrder) (data data1 : JSONObject) (w : SignedOrderJSON)
    (f : AmountField) (other : Bytes)
    (hw : json_Unmarshal data = Except.ok w)
    (hw1 : json_Unmarshal data1 = Except.ok (f.setText w other)) (x : Option Int) :
    f.setValue (s.UnmarshalJSON data).2 x = f.setValue (s.UnmarshalJSON data1).2 x := by
  rw [UnmarshalJSON_of_ok s data w hw, UnmarshalJSON_of_ok s data1 _ hw1]
  cases f <;> rfl

theorem setValue_value (f : AmountField) (s : SignedOrder) :
    f.setValue s (f.value s.toOrder) = s := by
  cases f <;> rfl

set_option maxRecDepth 100000 in
/-- C12, as stated, fails in three ways.  (1) `chainId` is an `int64` in the wire struct:
a string there, such as `one`, makes `json.Unmarshal` and so `UnmarshalJSON` return an
error.  (2) The salt `0x1f` does not parse as a decimal integer, yet `ParseBig256` reads
it as hexadecimal and the salt is 31, not nil.  (3) The empty string does not parse as
a decimal integer, and a receiver that held maker asset amount 7 still holds 7. -/
theorem C12_counterexample :
    (SignedOrder.zero.UnmarshalJSON
        (exampleWire [] [(ascii "chainId", JSONValue.string (ascii "one"))])).1
      = some unmarshalTypeError
    ∧ (isDecimalInteger (ascii "0x1f") = false
      ∧ SignedOrder.zero.UnmarshalJSON
          (exampleWire [] [(ascii "salt", JSONValue.string (ascii "0x1f"))])
        = (none, { exampleSignedOrder with Salt := some 31 }))
    ∧ (isDecimalInteger [] = false
      ∧ usedReceiver.MakerAssetAmount = some 7
      ∧ usedReceiver.UnmarshalJSON
          (exampleWire [] [(ascii "makerAssetAmount", JSONValue.string [])])
        = (none, usedReceiver)) := by
  decide

/-- C12 (amended): for every wire object that `json.Unmarshal` accepts (so `chainId` is
a number) and each of the six amount fields, if the field's value is a non-empty string
that parses neither as a decimal integer nor as a `0x`-prefixed hexadecimal integer,
`UnmarshalJSON` returns no error, leaves exactly that field nil, and decodes every
other field as it does for the wire object with any other text `other` in that
field. -/
theorem C12_permissive_integer_decode (s : SignedOrder) (data data1 : JSONObject)
    (w : SignedOrderJSON) (f : AmountField) (other : Bytes)
    (hw : json_Unmarshal data = Except.ok w)
    (hne : f.text w ≠ [])
    (hdec : isDecimalInteger (f.text w) = false)
    (hhex : isHexInteger (f.text w) = false)
    (hw1 : json_Unmarshal data1 = Except.ok (f.setText w other)) :
    (s.UnmarshalJSON data).1 = none
    ∧ f.value (s.UnmarshalJSON data).2.toOrder = none
    ∧ (s.UnmarshalJSON data).2 = f.setValue (s.UnmarshalJSON data1).2 none := by
  have hval : f.value (s.UnmarshalJSON data).2.toOrder = none := by
    rw [UnmarshalJSON_amount s data w hw, decodeAmount, if_pos hne,
      math_ParseBig256_not_integer _ hne hdec hhex]
  refine ⟨?_, hval, ?_⟩
  · rw [UnmarshalJSON_of_ok s data w hw]
  · rw [← UnmarshalJSON_setText s data data1 w f other hw hw1 none, ← hval, setValue_value]

set_option maxRecDepth 100000 in
/-- C12 (amended) at the example wire object with salt `4x2`, against the example wire
object itself (salt `42`), decoded into the receiver that was used before. -/
theorem C12_permissive_integer_decode_witness :
    json_Unmarshal (exampleWire [] [(ascii "salt", JSONValue.string (ascii "4x2"))])
      = Except.ok (AmountField.Salt.setText (exampleSignedOrder.toJSON exampleEnv 1) (ascii "4x2"))
    ∧ isDecimalInteger (ascii "4x2") = false
    ∧ isHexInteger (ascii "4x2") = false
    ∧ (usedReceiver.UnmarshalJSON
        (exampleWire [] [(ascii "salt", JSONValue.string (ascii "4x2"))])).1 = none
    ∧ AmountField.Salt.value (usedReceiver.UnmarshalJSON
        (exampleWire [] [(ascii "salt", JSONValue.string (ascii "4x2"))])).2.toOrder = none
    ∧ (usedReceiver.UnmarshalJSON
        (exampleWire [] [(ascii "salt", JSONValue.string (ascii "4x2"))])).2
      = AmountField.Salt.setValue (usedReceiver.UnmarshalJSON (exampleWire [] [])).2 none :=
  ⟨rfl, by decide, by decide,
    C12_permissive_integer_decode usedReceiver
      (exampleWire [] [(ascii "salt", JSONValue.string (ascii "4x2"))]) (exampleWire [] [])
      (AmountField.Salt.setText (exampleSignedOrder.toJSON exampleEnv 1) (ascii "4x2"))
      AmountField.Salt (ascii "42") rfl (by decide) (by decide) (by decide) rfl⟩

/-! ## C13: malformed address text -/

/-- Decoding hex text that contains a character that is no hex digit: the text splits
into a spelling of the bytes returned and a rest that starts with a malformed pair. -/
theorem hex_DecodeString_malformed :
    ∀ (body : Bytes), (∃ c ∈ body, fromHexChar c = none) →
      ∃ spelling bytes rest, body = spelling ++ rest ∧ hexSpells spelling bytes
        ∧ startsMalformed rest ∧ hex_DecodeString body = (bytes, false)
  | [], h => by
    obtain ⟨c, hc, _⟩ := h
    simp at hc
  | [c], _ => ⟨[], [], [c], rfl, trivial, trivial, rfl⟩
  | p :: q :: t, h => by
    cases hp : fromHexChar p with
    | none =>
      exact ⟨[], [], p :: q :: t, rfl, trivial, Or.inl hp, by simp [hex_DecodeString, hp]⟩
    | some a =>
      cases hq : fromHexChar q with
      | none =>
        exact ⟨[], [], p :: q :: t, rfl, trivial, Or.inr hq, by simp [hex_DecodeString, hp, hq]⟩
      | some b =>
        have ht : ∃ c ∈ t, fromHexChar c = none := by
          obtain ⟨c, hc, hbad⟩ := h
          simp only [List.mem_cons] at hc
          rcases hc with rfl | rfl | hc
          · rw [hp] at hbad; exact absurd hbad (by simp)
          · rw [hq] at hbad; exact absurd hbad (by simp)
          · exact ⟨c, hc, hbad⟩
        obtain ⟨spelling, bytes, rest, hsplit, hspell, hrest, hdecode⟩ :=
          hex_DecodeString_malformed t ht
        have ha : a < 16 := by
          unfold fromHexChar at hp
          split_ifs at hp <;> simp only [Option.some.injEq] at hp <;> omega
        have hb : b < 16 := by
          unfold fromHexChar at hq
          split_ifs at hq <;> simp only [Option.some.injEq] at hq <;> omega
        refine ⟨p :: q :: spelling, Fin.ofNat (a * 16 + b) :: bytes, rest, ?_, ?_, hrest, ?_⟩
        · rw [hsplit]; rfl
        · refine ⟨⟨a, b, hp, hq, ?_⟩, hspell⟩
          simp only [Fin.ofNat, Fin.val_mk]
          omega
        · simp only [hex_DecodeString, hp, hq, hdecode]

theorem common_FromHex_eq (s : Bytes) : common_FromHex s = common_Hex2Bytes (hexBody s) := rfl

theorem mem_hexBody (s : Bytes) (c : Byte) (hc : c ∈ withoutHexPrefix s) : c ∈ hexBody s := by
  unfold hexBody withoutHexPrefix at *
  simp only
  split_ifs <;> simp_all

set_option maxRecDepth 100000 in
/-- C13, as stated, fails at its own example.  The maker address text `0xaazz` contains
the non-hex character `z`; `hex.DecodeString` returns the byte `aa` decoded before the
error, and the decoded maker address is `0x00..00aa`, not the zero address. -/
theorem C13_counterexample :
    (∃ c ∈ withoutHexPrefix (ascii "0xaazz"), fromHexChar c = none)
    ∧ SignedOrder.zero.UnmarshalJSON
        (exampleWire [] [(ascii "makerAddress", JSONValue.string (ascii "0xaazz"))])
      = (none, { exampleSignedOrder with MakerAddress := Address.last 0xaa })
    ∧ Address.last 0xaa ≠ Address.zero := by
  decide

/-- C13 (amended): for every wire object that `json.Unmarshal` accepts and each of the
five address fields, if the field's string contains a character that is no hex digit
after the optional `0x` prefix, `UnmarshalJSON` returns no error and sets that address
to the bytes spelled by the hex pairs that come before the first malformed pair (the
prefix dropped, an odd-length string left-padded with `0`), fitted to 20 bytes; it is
the zero address when there is no such pair. -/
theorem C13_permissive_address_decode (s : SignedOrder) (data : JSONObject)
    (w : SignedOrderJSON) (f : AddressField)
    (hw : json_Unmarshal data = Except.ok w)
    (hmal : ∃ c ∈ withoutHexPrefix (f.text w), fromHexChar c = none) :
    (s.UnmarshalJSON data).1 = none
    ∧ ∃ spelling bytes rest,
        hexBody (f.text w) = spelling ++ rest
        ∧ hexSpells spelling bytes
        ∧ startsMalformed rest
        ∧ f.value (s.UnmarshalJSON data).2.toOrder = common_BytesToAddress bytes
        ∧ (bytes = [] → f.value (s.UnmarshalJSON data).2.toOrder = Address.zero) := by
  have hbody : ∃ c ∈ hexBody (f.text w), fromHexChar c = none := by
    obtain ⟨c, hc, hbad⟩ := hmal
    exact ⟨c, mem_hexBody _ c hc, hbad⟩
  obtain ⟨spelling, bytes, rest, hsplit, hspell, hrest, hdecode⟩ :=
    hex_DecodeString_malformed _ hbody
  have hval : f.value (s.UnmarshalJSON data).2.toOrder = common_BytesToAddress bytes := by
    rw [UnmarshalJSON_address s data w hw, common_HexToAddress, common_FromHex_eq,
      common_Hex2Bytes, hdecode]
  refine ⟨?_, spelling, bytes, rest, hsplit, hspell, hrest, hval, ?_⟩
  · rw [UnmarshalJSON_of_ok s data w hw]
  · intro hb
    rw [hval, hb]
    rfl

set_option maxRecDepth 100000 in
/-- C13 (amended) at the example wire object with maker address `0xaazz`. -/
theorem C13_permissive_address_decode_witness :
    json_Unmarshal
        (exampleWire [] [(ascii "makerAddress", JSONValue.string (ascii "0xaazz"))])
      = Except.ok { exampleSignedOrder.toJSON exampleEnv 1 with MakerAddress := ascii "0xaazz" }
    ∧ (∃ c ∈ withoutHexPrefix (ascii "0xaazz"), fromHexChar c = none)
    ∧ (SignedOrder.zero.UnmarshalJSON
        (exampleWire [] [(ascii "makerAddress", JSONValue.string (ascii "0xaazz"))])).1 = none
    ∧ ∃ spelling bytes rest,
        hexBody (ascii "0xaazz") = spelling ++ rest
        ∧ hexSpells spelling bytes
        ∧ startsMalformed rest
        ∧ AddressField.MakerAddress.value (SignedOrder.zero.UnmarshalJSON
            (exampleWire [] [(ascii "makerAddress", JSONValue.string (ascii "0xaazz"))])).2.toOrder
          = common_BytesToAddress bytes
        ∧ (bytes = [] → AddressField.MakerAddress.value (SignedOrder.zero.UnmarshalJSON
            (exampleWire [] [(ascii "makerAddress", JSONValue.string (ascii "0xaazz"))])).2.toOrder
          = Address.zero) :=
  ⟨rfl, by decide,
    C13_permissive_address_decode SignedOrder.zero
      (exampleWire [] [(ascii "makerAddress", JSONValue.string (ascii "0xaazz"))])
      { exampleSignedOrder.toJSON exampleEnv 1 with MakerAddress := ascii "0xaazz" }
      AddressField.MakerAddress rfl (by decide)⟩

/-! ## C14: decoding and the cached hash -/

/-- Go `UnmarshalJSON` never assigns the cached hash. -/
theorem UnmarshalJSON_hash (s : SignedOrder) (data : JSONObject) :
    (s.UnmarshalJSON data).2.hash = s.hash := by
  unfold SignedOrder.UnmarshalJSON
  cases json_Unmarshal data <;> rfl

set_option maxRecDepth 100000 in
/-- C14, as stated, fails for a receiver with a cached hash.  The receiver holds the
example order and its hash; the wire object of the example order with salt 43 decodes
into it without error, the cached hash is still there, and `ComputeOrderHash` returns
it instead of the hash of the decoded fields. -/
theorem C14_counterexample :
    hashedReceiver.hash = some exampleOrderHash
    ∧ (hashedReceiver.UnmarshalJSON
        (exampleWire [] [(ascii "salt", JSONValue.string (ascii "43"))])).1 = none
    ∧ (hashedReceiver.UnmarshalJSON
        (exampleWire [] [(ascii "salt", JSONValue.string (ascii "43"))])).2.Salt = some 43
    ∧ (hashedReceiver.UnmarshalJSON
        (exampleWire [] [(ascii "salt", JSONValue.string (ascii "43"))])).2.hash
      = some exampleOrderHash
    ∧ (hashedReceiver.UnmarshalJSON
        (exampleWire [] [(ascii "salt", JSONValue.string (ascii "43"))])).2.toOrder.hashResult
          exampleEnv
      = some (exampleOrderHash, none)
    ∧ (hashedReceiver.UnmarshalJSON
        (exampleWire [] [(ascii "salt", JSONValue.string (ascii "43"))])).2.toOrder.ResetHash.hashResult
          exampleEnv
      ≠ some (exampleOrderHash, none) := by
  decide

/-- C14 (amended): for every receiver with no cached hash (a fresh one) and every wire
object that decodes successfully, the order has no cached hash after `UnmarshalJSON`,
so `ComputeOrderHash` on it does what it does on a newly built order with the decoded
fields. -/
theorem C14_decode_leaves_no_memo (env : Env) (s : SignedOrder) (data : JSONObject)
    (hmemo : s.hash = none) (_hok : (s.UnmarshalJSON data).1 = none) :
    (s.UnmarshalJSON data).2.hash = none
    ∧ (s.UnmarshalJSON data).2.toOrder.ComputeOrderHash env
        = Order.ComputeOrderHash env { (s.UnmarshalJSON data).2.toOrder with hash := none } := by
  have h := UnmarshalJSON_hash s data
  rw [hmemo] at h
  refine ⟨h, ?_⟩
  congr 1
  generalize (s.UnmarshalJSON data).2.toOrder = o at h ⊢
  cases o
  simp only at h
  simp only [h]

set_option maxRecDepth 100000 in
/-- C14 (amended) at a zero-valued receiver and the example wire object. -/
theorem C14_decode_leaves_no_memo_witness :
    SignedOrder.zero.hash = none
    ∧ (SignedOrder.zero.UnmarshalJSON (exampleWire [] [])).1 = none
    ∧ (SignedOrder.zero.UnmarshalJSON (exampleWire [] [])).2.hash = none
    ∧ (SignedOrder.zero.UnmarshalJSON (exampleWire [] [])).2.toOrder.ComputeOrderHash exampleEnv
        = Order.ComputeOrderHash exampleEnv
            { (SignedOrder.zero.UnmarshalJSON (exampleWire [] [])).2.toOrder with hash := none } :=
  ⟨rfl, by decide,
    C14_decode_leaves_no_memo exampleEnv SignedOrder.zero (exampleWire [] []) rfl (by decide)⟩

/-! ## C15: the request to the signer -/

/-- C15: for every non-nil order on which `ComputeOrderHash` returns.  If it returns an
error, `SignOrder` returns that error and no signed order, and makes no request to the
signer.  If it returns the hash `h`, `SignOrder` makes exactly one request, for the 32
bytes of `h` and the maker address of the order; and if that request fails with an
error, `SignOrder` returns exactly that error and no signed order. -/
theorem C15_signing_request {σ : Type} (env : Env) (signer : Signer σ) (st : σ) (o o1 : Order)
    (r : Hash × Option Error) (hc : o.ComputeOrderHash env = some (r, o1)) :
    ∃ out, SignOrder env signer st (some o) = some out
      ∧ (∀ err, r.2 = some err →
          out.err = some err ∧ out.signedOrder = none ∧ out.calls = [] ∧ out.signer = st)
      ∧ (r.2 = none →
          out.calls = [(r.1.val, o.MakerAddress)]
          ∧ r.1.val.length = 32
          ∧ out.signer = (signer.EthSign st r.1.val o.MakerAddress).2
          ∧ ∀ err st1, signer.EthSign st r.1.val o.MakerAddress = (Except.error err, st1) →
              out.err = some err ∧ out.signedOrder = none) := by
  have hm := ComputeOrderHash_MakerAddress env o o1 r hc
  obtain ⟨h, e⟩ := r
  cases e with
  | some err0 =>
    refine ⟨_, by simp only [SignOrder, hc]; rfl, ?_, ?_⟩
    · intro err herr
      simp only [Option.some.injEq] at herr
      subst herr
      exact ⟨rfl, rfl, rfl, rfl⟩
    · intro hnone
      exact absurd hnone (by simp)
  | none =>
    cases hs : signer.EthSign st h.val o.MakerAddress with
    | mk res st1 =>
      have hs1 : signer.EthSign st h.val o1.MakerAddress = (res, st1) := by rw [hm]; exact hs
      cases res with
      | error err0 =>
        refine ⟨_, by simp only [SignOrder, hc, hs1]; rfl, ?_, ?_⟩
        · intro err herr
          exact absurd herr (by simp)
        · intro _
          refine ⟨by rw [hm], h.property, rfl, ?_⟩
          intro err st2 heq
          simp only [Prod.mk.injEq, Except.error.injEq] at heq
          obtain ⟨rfl, _⟩ := heq
          exact ⟨rfl, rfl⟩
      | ok sig =>
        refine ⟨_, by simp only [SignOrder, hc, hs1]; rfl, ?_, ?_⟩
        · intro err herr
          exact absurd herr (by simp)
        · intro _
          refine ⟨by rw [hm], h.property, rfl, ?_⟩
          intro err st2 heq
          simp only [Prod.mk.injEq, reduceCtorEq, false_and] at heq

set_option maxRecDepth 100000 in
/-- C15 at the example order: with a signer that refuses, and with a struct hash that
fails. -/
theorem C15_signing_request_witness :
    (exampleOrder.ComputeOrderHash exampleEnv
        = some ((exampleOrderHash, none), exampleHashedOrder)
      ∧ failingSigner.EthSign 0 exampleOrderHash.val exampleOrder.MakerAddress
          = (Except.error "signer refused", 1)
      ∧ ∃ out, SignOrder exampleEnv failingSigner 0 (some exampleOrder) = some out
          ∧ out.calls = [(exampleOrderHash.val, exampleOrder.MakerAddress)]
          ∧ out.err = some "signer refused"
          ∧ out.signedOrder = none)
    ∧ (exampleOrder.ComputeOrderHash failingEnv
        = some ((Hash.zero, some "hash failed"), exampleOrder)
      ∧ ∃ out, SignOrder failingEnv exampleSigner 0 (some exampleOrder) = some out
          ∧ out.err = some "hash failed"
          ∧ out.signedOrder = none
          ∧ out.calls = []
          ∧ out.signer = 0) := by
  refine ⟨⟨by decide, rfl, ?_⟩, ⟨by decide, ?_⟩⟩
  · obtain ⟨out, hout, _, h2⟩ :=
      C15_signing_request exampleEnv failingSigner 0 exampleOrder exampleHashedOrder
        (exampleOrderHash, none) (by decide)
    exact ⟨out, hout, (h2 rfl).1, ((h2 rfl).2.2.2 "signer refused" 1 rfl).1,
      ((h2 rfl).2.2.2 "signer refused" 1 rfl).2⟩
  · obtain ⟨out, hout, h1, _⟩ :=
      C15_signing_request failingEnv exampleSigner 0 exampleOrder exampleOrder
        (Hash.zero, some "hash failed") (by decide)
    exact ⟨out, hout, h1 "hash failed" rfl⟩

/-! ## C16: the chain id in the hash -/

/-- What `ComputeOrderHash` does on an order with no cached hash and a chain id. -/
theorem ComputeOrderHash_fresh (env : Env) (o : Order) (c : Int)
    (hm : o.hash = none) (hc : o.ChainID = some c) :
    o.ComputeOrderHash env
      = some (hashOutcome env (orderDomain env o (wrapInt64 c)).Map (orderMessage env o),
          match (hashOutcome env (orderDomain env o (wrapInt64 c)).Map (orderMessage env o)).2 with
          | some _ => o
          | none =>
            { o with
              hash := some (hashOutcome env (orderDomain env o (wrapInt64 c)).Map
                (orderMessage env o)).1 }) := by
  simp only [Order.ComputeOrderHash, hm, hc, big_Int_Int64_eq_wrap, hashOutcome]
  cases env.HashStruct (ascii "EIP712Domain") (orderDomain env o (wrapInt64 c)).Map with
  | error err => rfl
  | ok ds =>
    simp only
    cases env.HashStruct (ascii "Order") (orderMessage env o) with
    | error err => rfl
    | ok th => rfl

theorem hashResult_fresh (env : Env) (o : Order) (c : Int)
    (hm : o.hash = none) (hc : o.ChainID = some c) :
    o.hashResult env
      = some (hashOutcome env (orderDomain env o (wrapInt64 c)).Map (orderMessage env o)) := by
  simp only [Order.hashResult, ComputeOrderHash_fresh env o c hm hc]

/-- C16: `ComputeOrderHash` uses the chain id only through `Int64`, its truncation to
a signed 64-bit integer.  For every two orders with no cached hash that agree on all
other fields and whose chain ids (of either sign) are congruent modulo `2^64`, the
narrowed chain ids, the domain records and the returned hash and error are
identical. -/
theorem C16_chain_id_narrowing (env : Env) (o1 o2 : Order) (c1 c2 : Int)
    (hm1 : o1.hash = none) (hm2 : o2.hash = none)
    (hc1 : o1.ChainID = some c1) (hc2 : o2.ChainID = some c2)
    (hrest : { o1 with ChainID := none } = { o2 with ChainID := none })
    (hcong : c1 % 2 ^ 64 = c2 % 2 ^ 64) :
    big_Int_Int64 o1.ChainID = big_Int_Int64 o2.ChainID
    ∧ big_Int_Int64 o1.ChainID = some (wrapInt64 c1)
    ∧ orderDomain env o1 (wrapInt64 c1) = orderDomain env o2 (wrapInt64 c2)
    ∧ o1.hashResult env = o2.hashResult env := by
  have hw : wrapInt64 c1 = wrapInt64 c2 := by
    unfold wrapInt64
    simp only [hcong]
  have hd : orderDomain env o1 (wrapInt64 c1) = orderDomain env o2 (wrapInt64 c2) := by
    have he : o1.ExchangeAddress = o2.ExchangeAddress := by
      have h := congrArg Order.ExchangeAddress hrest; exact h
    simp only [orderDomain, hw, he]
  have hmsg : orderMessage env o1 = orderMessage env o2 := by
    have e1 : o1.MakerAddress = o2.MakerAddress := by
      have h := congrArg Order.MakerAddress hrest; exact h
    have e2 : o1.TakerAddress = o2.TakerAddress := by
      have h := congrArg Order.TakerAddress hrest; exact h
    have e3 : o1.SenderAddress = o2.SenderAddress := by
      have h := congrArg Order.SenderAddress hrest; exact h
    have e4 : o1.FeeRecipientAddress = o2.FeeRecipientAddress := by
      have h := congrArg Order.FeeRecipientAddress hrest; exact h
    have e5 : o1.MakerAssetData = o2.MakerAssetData := by
      have h := congrArg Order.MakerAssetData hrest; exact h
    have e6 : o1.MakerFeeAssetData = o2.MakerFeeAssetData := by
      have h := congrArg Order.MakerFeeAssetData hrest; exact h
    have e7 : o1.TakerAssetData = o2.TakerAssetData := by
      have h := congrArg Order.TakerAssetData hrest; exact h
    have e8 : o1.TakerFeeAssetData = o2.TakerFeeAssetData := by
      have h := congrArg Order.TakerFeeAssetData hrest; exact h
    have e9 : o1.Salt = o2.Salt := by
      have h := congrArg Order.Salt hrest; exact h
    have e10 : o1.MakerFee = o2.MakerFee := by
      have h := congrArg Order.MakerFee hrest; exact h
    have e11 : o1.TakerFee = o2.TakerFee := by
      have h := congrArg Order.TakerFee hrest; exact h
    have e12 : o1.MakerAssetAmount = o2.MakerAssetAmount := by
      have h := congrArg Order.MakerAssetAmount hrest; exact h
    have e13 : o1.TakerAssetAmount = o2.TakerAssetAmount := by
      have h := congrArg Order.TakerAssetAmount hrest; exact h
    have e14 : o1.ExpirationTimeSeconds = o2.ExpirationTimeSeconds := by
      have h := congrArg Order.ExpirationTimeSeconds hrest; exact h
    simp only [orderMessage, e1, e2, e3, e4, e5, e6, e7, e8, e9, e10, e11, e12, e13, e14]
  refine ⟨?_, ?_, hd, ?_⟩
  · rw [hc1, hc2, big_Int_Int64_eq_wrap, big_Int_Int64_eq_wrap, hw]
  · rw [hc1, big_Int_Int64_eq_wrap]
  · rw [hashResult_fresh env o1 c1 hm1 hc1, hashResult_fresh env o2 c2 hm2 hc2, hd, hmsg]

set_option maxRecDepth 100000 in
/-- C16 at the example order, chain id 1, and the same order with chain id
`2^64 + 1`. -/
theorem C16_chain_id_narrowing_witness :
    exampleOrder.ChainID = some 1
    ∧ wrappedChainOrder.toOrder.ChainID = some (2 ^ 64 + 1)
    ∧ (1 : Int) % 2 ^ 64 = (2 ^ 64 + 1) % 2 ^ 64
    ∧ big_Int_Int64 exampleOrder.ChainID = big_Int_Int64 wrappedChainOrder.toOrder.ChainID
    ∧ big_Int_Int64 exampleOrder.ChainID = some (wrapInt64 1)
    ∧ orderDomain exampleEnv exampleOrder (wrapInt64 1)
        = orderDomain exampleEnv wrappedChainOrder.toOrder (wrapInt64 (2 ^ 64 + 1))
    ∧ exampleOrder.hashResult exampleEnv = wrappedChainOrder.toOrder.hashResult exampleEnv :=
  ⟨rfl, rfl, by decide,
    C16_chain_id_narrowing exampleEnv exampleOrder wrappedChainOrder.toOrder 1 (2 ^ 64 + 1)
      rfl rfl rfl rfl rfl (by decide)⟩

/-! ## C17: the 256-bit bound on amounts -/

set_option maxRecDepth 100000 in
/-- C17, as stated for every wire object, fails when `json.Unmarshal` rejects the
object.  The wire object holds the decimal string of 1000 in `makerAssetAmount` and
has `chainId` as the string `1`; the wire struct wants a number there, so
`UnmarshalJSON` returns the decoder's error and the receiver keeps maker asset amount
7 instead of 1000. -/
theorem C17_counterexample :
    stringChainAmountWire.lookup (ascii "makerAssetAmount")
      = some (JSONValue.string (ascii "1000"))
    ∧ ascii "1000" = decimalText 1000
    ∧ usedReceiver.MakerAssetAmount = some 7
    ∧ usedReceiver.UnmarshalJSON stringChainAmountWire = (some unmarshalTypeError, usedReceiver)
    ∧ (usedReceiver.UnmarshalJSON stringChainAmountWire).2.MakerAssetAmount ≠ some 1000 :=
  ⟨by decide, Eq.trans (by decide) (natDecimal_eq_decimalText 1000), by decide, by decide,
    by decide⟩

/-- C17 (amended): for each of the six amount fields and every natural number `n`, when the wire
object (one that `json.Unmarshal` accepts) holds the decimal string of `n` in that
field, `UnmarshalJSON` returns no error and the field is `n` if `n < 2^256` and nil
if `n ≥ 2^256`. -/
theorem C17_amount_decode_bound (s : SignedOrder) (data : JSONObject) (w : SignedOrderJSON)
    (f : AmountField) (n : Nat)
    (hw : json_Unmarshal data = Except.ok w)
    (htext : f.text w = decimalText n) :
    (s.UnmarshalJSON data).1 = none
    ∧ f.value (s.UnmarshalJSON data).2.toOrder = if n < 2 ^ 256 then some (n : Int) else none := by
  constructor
  · rw [UnmarshalJSON_of_ok s data w hw]
  · rw [UnmarshalJSON_amount s data w hw, htext, decodeAmount, if_pos (decimalText_ne_nil n),
      math_ParseBig256_digits _ n (decimalText_ne_nil n) (decimalText_allDigits n)
        (scanDigits_decimalText n)]

set_option maxRecDepth 100000 in
/-- C17 (amended) at the wire object of the example signed order, maker asset amount 1000, and at
the wire object of the order with maker asset amount `2^256`, each decoded into the
receiver that holds maker asset amount 7. -/
theorem C17_amount_decode_bound_witness :
    (json_Unmarshal (exampleWire [] []) = Except.ok (exampleSignedOrder.toJSON exampleEnv 1)
      ∧ AmountField.MakerAssetAmount.text (exampleSignedOrder.toJSON exampleEnv 1)
          = decimalText 1000
      ∧ (usedReceiver.UnmarshalJSON (exampleWire [] [])).1 = none
      ∧ AmountField.MakerAssetAmount.value (usedReceiver.UnmarshalJSON (exampleWire [] [])).2.toOrder
          = if 1000 < 2 ^ 256 then some ((1000 : Nat) : Int) else none)
    ∧ (json_Unmarshal (json_Marshal (wideAmountOrder.toJSON exampleEnv 1))
          = Except.ok (wideAmountOrder.toJSON exampleEnv 1)
      ∧ AmountField.MakerAssetAmount.text (wideAmountOrder.toJSON exampleEnv 1)
          = decimalText (2 ^ 256)
      ∧ (usedReceiver.UnmarshalJSON (json_Marshal (wideAmountOrder.toJSON exampleEnv 1))).1 = none
      ∧ AmountField.MakerAssetAmount.value
          (usedReceiver.UnmarshalJSON (json_Marshal (wideAmountOrder.toJSON exampleEnv 1))).2.toOrder
          = if 2 ^ 256 < 2 ^ 256 then some ((2 ^ 256 : Nat) : Int) else none) :=
  ⟨⟨rfl, natDecimal_eq_decimalText 1000,
      C17_amount_decode_bound usedReceiver (exampleWire [] [])
        (exampleSignedOrder.toJSON exampleEnv 1) AmountField.MakerAssetAmount 1000 rfl
        (natDecimal_eq_decimalText 1000)⟩,
    ⟨rfl, Eq.trans (by decide) (natDecimal_eq_decimalText (2 ^ 256)),
      C17_amount_decode_bound usedReceiver (json_Marshal (wideAmountOrder.toJSON exampleEnv 1))
        (wideAmountOrder.toJSON exampleEnv 1) AmountField.MakerAssetAmount (2 ^ 256) rfl
        (Eq.trans (by decide) (natDecimal_eq_decimalText (2 ^ 256)))⟩⟩

/-! ## C18: what `ComputeOrderHash` changes -/

/-- C18: for every order with no cached hash.  Whenever `ComputeOrderHash` returns, the
16 fields are what they were; with an error the returned hash is the zero hash and no
hash is cached, and without an error the returned hash is cached.  When the chain id
is set it does return: the error of the domain struct hash if that fails, else the
error of the message struct hash if that fails, each with the zero hash and the order
untouched, and no error when both succeed. -/
theorem C18_hash_failure_atomic (env : Env) (o : Order) (hmemo : o.hash = none) :
    (∀ r o1, o.ComputeOrderHash env = some (r, o1) →
        sameFields o1 o
        ∧ (∀ err, r.2 = some err → r.1 = Hash.zero ∧ o1.hash = none)
        ∧ (r.2 = none → o1.hash = some r.1))
    ∧ (∀ c, o.ChainID = some c →
        ∃ r o1, o.ComputeOrderHash env = some (r, o1)
          ∧ (∀ err,
              env.HashStruct (ascii "EIP712Domain") (orderDomain env o (wrapInt64 c)).Map
                = Except.error err →
              r = (Hash.zero, some err) ∧ o1 = o)
          ∧ (∀ domainSeparator err,
              env.HashStruct (ascii "EIP712Domain") (orderDomain env o (wrapInt64 c)).Map
                = Except.ok domainSeparator →
              env.HashStruct (ascii "Order") (orderMessage env o) = Except.error err →
              r = (Hash.zero, some err) ∧ o1 = o)
          ∧ (∀ domainSeparator typedDataHash,
              env.HashStruct (ascii "EIP712Domain") (orderDomain env o (wrapInt64 c)).Map
                = Except.ok domainSeparator →
              env.HashStruct (ascii "Order") (orderMessage env o) = Except.ok typedDataHash →
              r.2 = none ∧ o1 = { o with hash := some r.1 })) := by
  constructor
  · intro r o1 hc
    rcases ComputeOrderHash_after env o o1 r hc with rfl | ⟨hr2, _, rfl⟩
    · refine ⟨rfl, ?_, ?_⟩
      · intro err herr
        refine ⟨?_, hmemo⟩
        cases hch : o1.ChainID with
        | none =>
          simp [Order.ComputeOrderHash, hmemo, hch, big_Int_Int64] at hc
        | some c =>
          rw [ComputeOrderHash_fresh env o1 c hmemo hch] at hc
          simp only [Option.some.injEq, Prod.mk.injEq] at hc
          obtain ⟨hr, _⟩ := hc
          rw [← hr] at herr ⊢
          unfold hashOutcome at herr ⊢
          split at herr
          · rfl
          · split at herr
            · rfl
            · exact absurd herr (by simp)
      · intro hnone
        cases hch : o1.ChainID with
        | none =>
          simp [Order.ComputeOrderHash, hmemo, hch, big_Int_Int64] at hc
        | some c =>
          rw [ComputeOrderHash_fresh env o1 c hmemo hch] at hc
          simp only [Option.some.injEq, Prod.mk.injEq] at hc
          obtain ⟨hr, ho⟩ := hc
          rw [← hr] at hnone
          rw [hnone] at ho
          have := congrArg Order.hash ho
          simp only at this
          rw [hmemo] at this
          exact absurd this (by simp)
    · refine ⟨rfl, ?_, ?_⟩
      · intro err herr
        rw [hr2] at herr
        exact absurd herr (by simp)
      · intro _
        rfl
  · intro c hc
    refine ⟨_, _, ComputeOrderHash_fresh env o c hmemo hc, ?_, ?_, ?_⟩
    · intro err hd
      simp only [hashOutcome, hd, and_self]
    · intro ds err hd hm
      simp only [hashOutcome, hd, hm, and_self]
    · intro ds th hd hm
      simp only [hashOutcome, hd, hm, and_self]

set_option maxRecDepth 100000 in
/-- C18 at the example order: hashed with the example parameters, and with a struct
hash that fails. -/
theorem C18_hash_failure_atomic_witness :
    exampleOrder.hash = none
    ∧ (exampleOrder.ComputeOrderHash exampleEnv
        = some ((exampleOrderHash, none), exampleHashedOrder)
      ∧ sameFields exampleHashedOrder exampleOrder
      ∧ exampleHashedOrder.hash = some exampleOrderHash)
    ∧ (exampleOrder.ComputeOrderHash failingEnv
        = some ((Hash.zero, some "hash failed"), exampleOrder)
      ∧ ∃ r o1, exampleOrder.ComputeOrderHash failingEnv = some (r, o1)
        ∧ r = (Hash.zero, some "hash failed") ∧ o1 = exampleOrder) := by
  refine ⟨rfl, ⟨by decide, ?_⟩, ⟨by decide, ?_⟩⟩
  · have h := (C18_hash_failure_atomic exampleEnv exampleOrder rfl).1
      (exampleOrderHash, none) exampleHashedOrder (by decide)
    exact ⟨h.1, h.2.2 rfl⟩
  · obtain ⟨r, o1, hc, h1, _⟩ := (C18_hash_failure_atomic failingEnv exampleOrder rfl).2 1 rfl
    exact ⟨r, o1, hc, h1 "hash failed" rfl⟩

/-! ## C19: trimming a rebuilt order -/

/-- C19: for every trimmed order `t` and every signature `sig`, trimming the signed order
made of `FromTrimmedOrder(t)` and `sig` gives `t` back, in all 14 fields; and
`FromTrimmedOrder(t)` has a nil chain id, the zero exchange address and no cached
hash. -/
theorem C19_trim_left_inverse (t : TrimmedOrder) (sig : Bytes) :
    SignedOrder.Trim { toOrder := FromTrimmedOrder t, Signature := sig } = t
    ∧ (FromTrimmedOrder t).ChainID = none
    ∧ (FromTrimmedOrder t).ExchangeAddress = Address.zero
    ∧ (FromTrimmedOrder t).hash = none :=
  ⟨rfl, rfl, rfl, rfl⟩

/-! ## C20: decoding into a receiver that was used before -/

theorem setString_text (f : AmountField) (g : Field) (v : SignedOrderJSON) (s : Bytes) :
    f.text (v.setString g s) = if g = f.toField then s else f.text v := by
  cases g <;> cases f <;> rfl

/-- If every member that selects an amount field is the empty string, the field of the
decoded struct stays empty. -/
theorem unmarshalMembers_text (f : AmountField) :
    ∀ (data : JSONObject) (v : SignedOrderJSON) (saved : Option Error),
      f.text v = [] →
      (∀ m ∈ data, lookupField m.1 = some f.toField → m.2 = JSONValue.string []) →
      f.text (unmarshalMembers data v saved).1 = [] := by
  intro data
  induction data with
  | nil => intro v saved hv _; exact hv
  | cons m rest ih =>
    intro v saved hv hall
    obtain ⟨key, x⟩ := m
    have hrest : ∀ m ∈ rest, lookupField m.1 = some f.toField → m.2 = JSONValue.string [] :=
      fun m hm => hall m (List.mem_cons_of_mem _ hm)
    have hhead := hall (key, x) (List.mem_cons_self _ _)
    simp only at hhead
    unfold unmarshalMembers
    cases hk : lookupField key with
    | none => exact ih v saved hv hrest
    | some g =>
      simp only
      cases hd : decodeMember v g x with
      | error err => exact ih v _ hv hrest
      | ok v1 =>
        simp only
        refine ih v1 saved ?_ hrest
        unfold decodeMember at hd
        cases x with
        | null =>
          simp only [Except.ok.injEq] at hd
          rw [← hd]; exact hv
        | number n =>
          simp only at hd
          split_ifs at hd with h1 h2
          simp only [Except.ok.injEq] at hd
          rw [← hd]
          cases f <;> exact hv
        | string s =>
          simp only at hd
          split_ifs at hd with h1
          simp only [Except.ok.injEq] at hd
          rw [← hd, setString_text]
          by_cases hg : g = f.toField
          · rw [if_pos hg]
            have := hhead (by rw [hk, hg])
            simp only [JSONValue.string.injEq] at this
            exact this
          · rw [if_neg hg]; exact hv
        | other => simp at hd

theorem json_Unmarshal_text (f : AmountField) (data : JSONObject) (w : SignedOrderJSON)
    (hw : json_Unmarshal data = Except.ok w)
    (hall : ∀ m ∈ data, lookupField m.1 = some f.toField → m.2 = JSONValue.string []) :
    f.text w = [] := by
  have h := unmarshalMembers_text f data SignedOrderJSON.zero none (by cases f <;> rfl) hall
  unfold json_Unmarshal at hw
  split at hw
  · rename_i v heq
    simp only [Except.ok.injEq] at hw
    rw [heq] at h
    rw [← hw]
    exact h
  · exact absurd hw (by simp)

set_option maxRecDepth 100000 in
/-- C20, as stated for every wire object, fails when `json.Unmarshal` rejects the
object.  The wire object has no salt and has `chainId` as the string `1`; the wire
struct wants a number there, so `UnmarshalJSON` does not succeed: it returns the
decoder's error and overwrites nothing, and the maker address of the receiver is not
the `0x01` of the wire object. -/
theorem C20_counterexample :
    (∀ m ∈ stringChainSaltlessWire,
        lookupField m.1 = some AmountField.Salt.toField → m.2 = JSONValue.string [])
    ∧ stringChainSaltlessWire.lookup (ascii "makerAddress")
        = some (JSONValue.string (ascii "0x01"))
    ∧ exampleSignedOrder.UnmarshalJSON stringChainSaltlessWire
        = (some unmarshalTypeError, exampleSignedOrder)
    ∧ (exampleSignedOrder.UnmarshalJSON stringChainSaltlessWire).2.MakerAddress
        ≠ common_HexToAddress (ascii "0x01") := by
  decide

/-- C20 (amended): for every receiver and every wire object that `json.Unmarshal` accepts in which
an amount field is missing or the empty string (every member that selects the field is
the empty string), `UnmarshalJSON` returns no error and leaves that field of the
receiver at the value it had, while the chain id, the five addresses, the four byte
fields and the signature are overwritten from the wire object. -/
theorem C20_reused_receiver (r : SignedOrder) (data : JSONObject) (w : SignedOrderJSON)
    (f : AmountField)
    (hw : json_Unmarshal data = Except.ok w)
    (hfield : ∀ m ∈ data, lookupField m.1 = some f.toField → m.2 = JSONValue.string []) :
    (r.UnmarshalJSON data).1 = none
    ∧ f.value (r.UnmarshalJSON data).2.toOrder = f.value r.toOrder
    ∧ (r.UnmarshalJSON data).2.ChainID = some w.ChainID
    ∧ (∀ a : AddressField,
        a.value (r.UnmarshalJSON data).2.toOrder = common_HexToAddress (a.text w))
    ∧ (r.UnmarshalJSON data).2.MakerAssetData = common_FromHex w.MakerAssetData
    ∧ (r.UnmarshalJSON data).2.TakerAssetData = common_FromHex w.TakerAssetData
    ∧ (r.UnmarshalJSON data).2.MakerFeeAssetData = common_FromHex w.MakerFeeAssetData
    ∧ (r.UnmarshalJSON data).2.TakerFeeAssetData = common_FromHex w.TakerFeeAssetData
    ∧ (r.UnmarshalJSON data).2.Signature = common_FromHex w.Signature := by
  have htext := json_Unmarshal_text f data w hw hfield
  refine ⟨?_, ?_, ?_, fun a => UnmarshalJSON_address r data w hw a, ?_, ?_, ?_, ?_, ?_⟩
  · rw [UnmarshalJSON_of_ok r data w hw]
  · rw [UnmarshalJSON_amount r data w hw, htext]
    rfl
  all_goals simp only [UnmarshalJSON_of_ok r data w hw, big_NewInt]

set_option maxRecDepth 100000 in
/-- C20 (amended) at the example signed order as receiver and a wire object that has only a chain
id and an empty maker asset amount: the maker asset amount (empty string) and the salt
(missing) keep the values of the receiver. -/
theorem C20_reused_receiver_witness :
    json_Unmarshal sparseWire = Except.ok { SignedOrderJSON.zero with ChainID := 5 }
    ∧ (∀ m ∈ sparseWire,
        lookupField m.1 = some AmountField.MakerAssetAmount.toField → m.2 = JSONValue.string [])
    ∧ (∀ m ∈ sparseWire,
        lookupField m.1 = some AmountField.Salt.toField → m.2 = JSONValue.string [])
    ∧ (exampleSignedOrder.UnmarshalJSON sparseWire).1 = none
    ∧ (exampleSignedOrder.UnmarshalJSON sparseWire).2.MakerAssetAmount = some 1000
    ∧ (exampleSignedOrder.UnmarshalJSON sparseWire).2.Salt = some 42
    ∧ (exampleSignedOrder.UnmarshalJSON sparseWire).2.ChainID = some 5
    ∧ (exampleSignedOrder.UnmarshalJSON sparseWire).2.Signature = common_FromHex [] :=
  ⟨rfl, by decide, by decide,
    (C20_reused_receiver exampleSignedOrder sparseWire { SignedOrderJSON.zero with ChainID := 5 }
      AmountField.MakerAssetAmount rfl (by decide)).1,
    (C20_reused_receiver exampleSignedOrder sparseWire { SignedOrderJSON.zero with ChainID := 5 }
      AmountField.MakerAssetAmount rfl (by decide)).2.1,
    (C20_reused_receiver exampleSignedOrder sparseWire { SignedOrderJSON.zero with ChainID := 5 }
      AmountField.Salt rfl (by decide)).2.1,
    (C20_reused_receiver exampleSignedOrder sparseWire { SignedOrderJSON.zero with ChainID := 5 }
      AmountField.Salt rfl (by decide)).2.2.1,
    (C20_reused_receiver exampleSignedOrder sparseWire { SignedOrderJSON.zero with ChainID := 5 }
      AmountField.Salt rfl (by decide)).2.2.2.2.2.2.2.2⟩

end zeroex
